import Mathlib

/-!
Verification of the terminal raycasting FPS (src/src/game_backup.py).

The development shallowly embeds the Python source: Python floats become
real numbers, `float('inf')` becomes an extended-real type `Ext`,
Python lists become Lean lists, fallible list indexing returns `Option`,
and the randomness consumed by the game is passed in explicitly as
oracle data.  Stateful methods of the `Game` class become functions on
an explicit `GState` record; methods that can raise an exception return
`Option`/`Except` values mirroring the `try`/`except` structure of the
source.
-/

set_option maxHeartbeats 1000000

open Classical in
/-- Python `int()` applied to a float: truncation toward zero. -/
noncomputable def pyInt (r : ℝ) : ℤ := if 0 ≤ r then ⌊r⌋ else ⌈r⌉

open Classical in
/-- Python `%` on floats with a positive modulus: `x - m * floor (x / m)`. -/
noncomputable def pyModR (x m : ℝ) : ℝ := x - m * ⌊x / m⌋

/-- Python `math.radians`. -/
noncomputable def radOf (d : ℝ) : ℝ := d * Real.pi / 180

/-- Python `math.degrees`. -/
noncomputable def degOf (r : ℝ) : ℝ := r * 180 / Real.pi

open Classical in
/-- Python `math.atan2 y x`. -/
noncomputable def pyAtan2 (y x : ℝ) : ℝ :=
  if 0 < x then Real.arctan (y / x)
  else if x < 0 then
    (if 0 ≤ y then Real.arctan (y / x) + Real.pi else Real.arctan (y / x) - Real.pi)
  else
    (if 0 < y then Real.pi / 2 else if y < 0 then -(Real.pi / 2) else 0)

/-- Safe (non-wrapping) list indexing by an integer: `none` when the index
is negative or past the end.  Used to state where a Python access is in
bounds. -/
def zget {α : Type} (l : List α) (i : ℤ) : Option α :=
  if 0 ≤ i then l.get? i.toNat else none

/-- Python list indexing semantics: a negative index `-len ≤ i < 0` wraps
to the end of the list, anything further out raises `IndexError`,
modelled as `none`. -/
def zgetPy {α : Type} (l : List α) (i : ℤ) : Option α :=
  if 0 ≤ i then l.get? i.toNat
  else if -(l.length : ℤ) ≤ i then l.get? (l.length + i).toNat
  else none

/-- Two-dimensional grid access `game_map[i][j]` without wrapping. -/
def cellAt (gm : List (List ℤ)) (i j : ℤ) : Option ℤ :=
  (zget gm i).bind fun row => zget row j

/-- Two-dimensional grid access `game_map[i][j]` with Python index
wrapping. -/
def cellPy (gm : List (List ℤ)) (i j : ℤ) : Option ℤ :=
  (zgetPy gm i).bind fun row => zgetPy row j

/-- Width of a map, `len(game_map[0])` as in `Raycaster.__init__`. -/
def gmWidth (gm : List (List ℤ)) : ℕ := (gm.headD []).length

/-- Height of a map, `len(game_map)` as in `Raycaster.__init__`. -/
def gmHeight (gm : List (List ℤ)) : ℕ := gm.length

/-- Extended reals used to model Python floats together with
`float('inf')`: `none` stands for `+inf`.  Only the operations the
raycaster actually performs on possibly-infinite values are defined. -/
def PyF : Type := Option ℝ

/-- An ordinary (finite) float viewed as a `PyF`. -/
def PyF.fin (r : ℝ) : PyF := some r

/-- The value `float('inf')`. -/
def PyF.inf : PyF := none

/-- Strict comparison of possibly-infinite floats: `x < inf` holds for
finite `x`, `inf < x` never holds. -/
def PyF.lt : PyF → PyF → Prop
  | some a, some b => a < b
  | some _, none => True
  | none, _ => False

/-- Addition where `inf + x = inf` as for Python floats. -/
def PyF.add : PyF → PyF → PyF
  | some a, some b => some (a + b)
  | _, _ => none

/-- Scaling `r * d` by a finite float `r`.  In `cast_ray` this is only
ever applied with `r > 0` when `d` is infinite (the factor
`map_c + 1.0 - player.c` or `player.c - map_c` paired with an infinite
`delta_dist` is strictly positive, see the sign analysis in
`castRayHit`), so Python never produces `nan` here and `r * inf = inf`
is the faithful value. -/
def PyF.scale (r : ℝ) : PyF → PyF
  | some a => some (r * a)
  | none => none

noncomputable instance (a b : PyF) : Decidable (PyF.lt a b) :=
  Classical.propDecidable _

lemma PyF.lt_fin_inf (r : ℝ) : PyF.lt (some r) none := trivial

lemma PyF.not_lt_inf (d : PyF) : ¬ PyF.lt none d := fun h => h

lemma PyF.lt_fin_fin {a b : ℝ} (h : a < b) : PyF.lt (some a) (some b) := h

/-!  ## Raycaster (`Raycaster.cast_ray`, lines 224-276)

The DDA loop of `cast_ray` steps cell by cell; each iteration advances
`map_x` or `map_y` by `step_x`/`step_y` depending on which accumulated
side distance is smaller, then checks bounds and then the wall.  The
Python loop is unbounded (`while hit == 0`); it is embedded with a fuel
parameter, `none` meaning that the loop has not finished within `fuel`
iterations (or that a ragged map row caused an `IndexError`). -/

open Classical in
/-- DDA loop body of `cast_ray` (lines 252-267).  Returns the hit cell
`(map_x, map_y, side)` at which the loop sets `hit = 1`. -/
noncomputable def ddaLoop (gm : List (List ℤ)) :
    ℕ → ℤ → ℤ → ℤ → ℤ → PyF → PyF → PyF → PyF → Option (ℤ × ℤ × ℕ)
  | 0, _, _, _, _, _, _, _, _ => none
  | fuel+1, mapx, mapy, stepx, stepy, sdx, sdy, ddx, ddy =>
    if PyF.lt sdx sdy then
      let mx := mapx + stepx
      if mx < 0 ∨ (gmWidth gm : ℤ) ≤ mx ∨ mapy < 0 ∨ (gmHeight gm : ℤ) ≤ mapy then
        some (mx, mapy, 0)
      else
        match cellAt gm mapy mx with
        | none => none
        | some v =>
          if 0 < v then some (mx, mapy, 0)
          else ddaLoop gm fuel mx mapy stepx stepy (PyF.add sdx ddx) sdy ddx ddy
    else
      let my := mapy + stepy
      if mapx < 0 ∨ (gmWidth gm : ℤ) ≤ mapx ∨ my < 0 ∨ (gmHeight gm : ℤ) ≤ my then
        some (mapx, my, 1)
      else
        match cellAt gm my mapx with
        | none => none
        | some v =>
          if 0 < v then some (mapx, my, 1)
          else ddaLoop gm fuel mapx my stepx stepy sdx (PyF.add sdy ddy) ddx ddy

open Classical in
/-- Initial data of `cast_ray` (lines 226-248) followed by the DDA loop:
returns the hit cell.  `a` is the ray angle in degrees. -/
noncomputable def castRayHit (gm : List (List ℤ)) (px py a : ℝ) (fuel : ℕ) :
    Option (ℤ × ℤ × ℕ) :=
  let rdx : ℝ := Real.cos (radOf a)
  let rdy : ℝ := -Real.sin (radOf a)
  let mapx := pyInt px
  let mapy := pyInt py
  let ddx : PyF := if rdx = 0 then PyF.inf else PyF.fin |1 / rdx|
  let ddy : PyF := if rdy = 0 then PyF.inf else PyF.fin |1 / rdy|
  let stepx : ℤ := if rdx < 0 then -1 else 1
  let sdx : PyF := if rdx < 0 then PyF.scale (px - mapx) ddx
                   else PyF.scale (mapx + 1 - px) ddx
  let stepy : ℤ := if rdy < 0 then -1 else 1
  let sdy : PyF := if rdy < 0 then PyF.scale (py - mapy) ddy
                   else PyF.scale (mapy + 1 - py) ddy
  ddaLoop gm fuel mapx mapy stepx stepy sdx sdy ddx ddy

open Classical in
/-- Full `cast_ray` distance result (lines 226-274): the perpendicular
distance computed from the hit cell (lines 269-272) multiplied by the
fisheye correction factor `cos(radians(angle - player.angle))`
(line 274).  `pangle` is the player facing used only for that
correction.  Real division by zero yields 0 in Lean; the corresponding
Python `ZeroDivisionError` is unreachable because `side = 0` forces
`side_dist_x` finite, hence `ray_dir_x ≠ 0`, and likewise for
`side = 1`. -/
noncomputable def castRay (gm : List (List ℤ)) (px py pangle a : ℝ) (fuel : ℕ) :
    Option ℝ :=
  let rdx : ℝ := Real.cos (radOf a)
  let rdy : ℝ := -Real.sin (radOf a)
  let stepx : ℤ := if rdx < 0 then -1 else 1
  let stepy : ℤ := if rdy < 0 then -1 else 1
  (castRayHit gm px py a fuel).map fun r =>
    let perp : ℝ :=
      if r.2.2 = 0 then ((r.1 : ℝ) - px + (1 - (stepx : ℝ)) / 2) / rdx
      else ((r.2.1 : ℝ) - py + (1 - (stepy : ℝ)) / 2) / rdy
    perp * Real.cos (radOf (a - pangle))

/-- Ray angle of rendered column `x` (line 548):
`player.angle - HALF_FOV + x * DELTA_ANGLE` with `HALF_FOV = 30` and
`DELTA_ANGLE = FOV / NUM_RAYS = 60 / 40 = 1.5`. -/
noncomputable def rayAngleAt (pangle : ℝ) (x : ℕ) : ℝ := pangle - 30 + (x : ℝ) * 1.5

/-- Second fisheye correction applied by `Game.render` (line 551) to the
distance returned by `cast_ray`. -/
noncomputable def renderDist (dist a pangle : ℝ) : ℝ :=
  dist * Real.cos (radOf (a - pangle))

open Classical in
/-- Wall slice height (line 552):
`int(SCREEN_HEIGHT / corrected_dist) if corrected_dist > 0 else SCREEN_HEIGHT`
with `SCREEN_HEIGHT = 25`. -/
noncomputable def lineHeight (cd : ℝ) : ℤ := if 0 < cd then pyInt (25 / cd) else 25

/-- A 4 by 4 map whose border cells are all walls and whose interior is
open; used as a concrete witness map. -/
def demoMap4 : List (List ℤ) :=
  [[1, 1, 1, 1], [1, 0, 0, 1], [1, 0, 0, 1], [1, 1, 1, 1]]

/-- The map is rectangular: every row has the width of row 0. -/
def rectB (gm : List (List ℤ)) : Bool :=
  gm.all fun row => row.length == gmWidth gm

/-- Every border cell of the map holds a wall (a value `> 0`, the wall
test used by `cast_ray` at line 266). -/
def borderWallB (gm : List (List ℤ)) : Bool :=
  (List.range (gmHeight gm)).all fun i =>
    (List.range (gmWidth gm)).all fun j =>
      !(i == 0 || i == gmHeight gm - 1 || j == 0 || j == gmWidth gm - 1) ||
        (cellAt gm i j).any fun v => decide (0 < v)

lemma cellAt_isSome_of_rect (gm : List (List ℤ)) (hrect : rectB gm = true)
    {i j : ℤ} (hi0 : 0 ≤ i) (hih : i < (gmHeight gm : ℤ))
    (hj0 : 0 ≤ j) (hjw : j < (gmWidth gm : ℤ)) : ∃ v, cellAt gm i j = some v := by
  unfold cellAt zget
  rw [if_pos hi0]
  have hi : i.toNat < gm.length := by
    unfold gmHeight at hih; omega
  have hrow : gm.get? i.toNat = some (gm.get ⟨i.toNat, hi⟩) := List.get?_eq_get hi
  rw [hrow]
  set row := gm.get ⟨i.toNat, hi⟩ with hrowdef
  have hmem : row ∈ gm := List.get_mem gm _ _
  have hlen : row.length = gmWidth gm := by
    have := List.all_eq_true.mp hrect row hmem
    simpa using this
  simp only [Option.some_bind]
  rw [if_pos hj0]
  have hj : j.toNat < row.length := by rw [hlen]; omega
  exact ⟨row.get ⟨j.toNat, hj⟩, List.get?_eq_get hj⟩

lemma border_wall_cell (gm : List (List ℤ)) (hb : borderWallB gm = true)
    {i j v : ℤ} (hi0 : 0 ≤ i) (hih : i < (gmHeight gm : ℤ))
    (hj0 : 0 ≤ j) (hjw : j < (gmWidth gm : ℤ))
    (hedge : i = 0 ∨ i = (gmHeight gm : ℤ) - 1 ∨ j = 0 ∨ j = (gmWidth gm : ℤ) - 1)
    (hc : cellAt gm i j = some v) : 0 < v := by
  unfold borderWallB at hb
  have h1 := List.all_eq_true.mp hb i.toNat (List.mem_range.mpr (by omega))
  have h2 := List.all_eq_true.mp h1 j.toNat (List.mem_range.mpr (by omega))
  have hcast : ((i.toNat : ℤ)) = i := by omega
  have hcast2 : ((j.toNat : ℤ)) = j := by omega
  rw [Bool.or_eq_true, Bool.not_eq_true'] at h2
  rcases h2 with h2 | h2
  · exfalso
    have hset : (i.toNat == 0 || i.toNat == gmHeight gm - 1 || j.toNat == 0 ||
        j.toNat == gmWidth gm - 1) = true := by
      simp only [Bool.or_eq_true, beq_iff_eq]
      omega
    rw [hset] at h2; simp at h2
  · rw [hcast, hcast2, hc] at h2
    simpa using h2

lemma open_cell_interior (gm : List (List ℤ)) (hb : borderWallB gm = true)
    {i j v : ℤ} (hi0 : 0 ≤ i) (hih : i < (gmHeight gm : ℤ))
    (hj0 : 0 ≤ j) (hjw : j < (gmWidth gm : ℤ))
    (hc : cellAt gm i j = some v) (hv : ¬ 0 < v) :
    1 ≤ i ∧ i ≤ (gmHeight gm : ℤ) - 2 ∧ 1 ≤ j ∧ j ≤ (gmWidth gm : ℤ) - 2 := by
  by_contra hcon
  have hedge : i = 0 ∨ i = (gmHeight gm : ℤ) - 1 ∨ j = 0 ∨ j = (gmWidth gm : ℤ) - 1 := by
    omega
  exact hv (border_wall_cell gm hb hi0 hih hj0 hjw hedge hc)

lemma dmeasure_step {W mapx stepx : ℤ} (hs : stepx = 1 ∨ stepx = -1) :
    (if stepx = 1 then W - 1 - (mapx + stepx) else mapx + stepx)
      = (if stepx = 1 then W - 1 - mapx else mapx) - 1 := by
  rcases hs with h | h <;> subst h <;> simp <;> ring

lemma dmeasure_pos {W mapx stepx : ℤ} (hs : stepx = 1 ∨ stepx = -1)
    (h1 : 1 ≤ mapx) (h2 : mapx ≤ W - 2) :
    1 ≤ (if stepx = 1 then W - 1 - mapx else mapx) := by
  rcases hs with h | h <;> subst h <;> simp <;> omega

lemma dmeasure_le {W mapx stepx : ℤ} (hs : stepx = 1 ∨ stepx = -1)
    (h1 : 1 ≤ mapx) (h2 : mapx ≤ W - 2) :
    (if stepx = 1 then W - 1 - mapx else mapx) ≤ W - 2 := by
  rcases hs with h | h <;> subst h <;> simp <;> omega

lemma ddaLoop_safe (gm : List (List ℤ)) (hrect : rectB gm = true)
    (hb : borderWallB gm = true) :
    ∀ (fuel : ℕ) (mapx mapy stepx stepy : ℤ) (sdx sdy ddx ddy : PyF),
      (stepx = 1 ∨ stepx = -1) → (stepy = 1 ∨ stepy = -1) →
      1 ≤ mapx → mapx ≤ (gmWidth gm : ℤ) - 2 →
      1 ≤ mapy → mapy ≤ (gmHeight gm : ℤ) - 2 →
      (if stepx = 1 then (gmWidth gm : ℤ) - 1 - mapx else mapx)
        + (if stepy = 1 then (gmHeight gm : ℤ) - 1 - mapy else mapy) ≤ (fuel : ℤ) →
      ∃ mx my sd,
        ddaLoop gm fuel mapx mapy stepx stepy sdx sdy ddx ddy = some (mx, my, sd)
          ∧ 0 ≤ mx ∧ mx < (gmWidth gm : ℤ) ∧ 0 ≤ my ∧ my < (gmHeight gm : ℤ) := by
  intro fuel
  induction fuel with
  | zero =>
    intro mapx mapy stepx stepy sdx sdy ddx ddy hsx hsy hx1 hx2 hy1 hy2 hm
    exfalso
    have hp1 := dmeasure_pos hsx hx1 hx2
    have hp2 := dmeasure_pos hsy hy1 hy2
    omega
  | succ n ih =>
    intro mapx mapy stepx stepy sdx sdy ddx ddy hsx hsy hx1 hx2 hy1 hy2 hm
    simp only [ddaLoop]
    by_cases hlt : PyF.lt sdx sdy
    · rw [if_pos hlt]
      have hmx0 : 0 ≤ mapx + stepx := by rcases hsx with h | h <;> omega
      have hmxw : mapx + stepx < (gmWidth gm : ℤ) := by rcases hsx with h | h <;> omega
      have hnb : ¬(mapx + stepx < 0 ∨ (gmWidth gm : ℤ) ≤ mapx + stepx ∨
          mapy < 0 ∨ (gmHeight gm : ℤ) ≤ mapy) := by
        push_neg
        exact ⟨by omega, by omega, by omega, by omega⟩
      rw [if_neg hnb]
      obtain ⟨v, hv⟩ := @cellAt_isSome_of_rect gm hrect mapy (mapx + stepx)
        (by omega) (by omega) hmx0 hmxw
      rw [hv]
      dsimp only
      by_cases hwall : 0 < v
      · rw [if_pos hwall]
        exact ⟨mapx + stepx, mapy, 0, rfl, hmx0, hmxw, by omega, by omega⟩
      · rw [if_neg hwall]
        obtain ⟨hi1, hi2, hj1, hj2⟩ := @open_cell_interior gm hb mapy (mapx + stepx) v
          (by omega) (by omega) hmx0 hmxw hv hwall
        refine ih (mapx + stepx) mapy stepx stepy (PyF.add sdx ddx) sdy ddx ddy
          hsx hsy hj1 hj2 hy1 hy2 ?_
        rw [dmeasure_step hsx]
        push_cast at hm ⊢
        omega
    · rw [if_neg hlt]
      have hmy0 : 0 ≤ mapy + stepy := by rcases hsy with h | h <;> omega
      have hmyh : mapy + stepy < (gmHeight gm : ℤ) := by rcases hsy with h | h <;> omega
      have hnb : ¬(mapx < 0 ∨ (gmWidth gm : ℤ) ≤ mapx ∨
          mapy + stepy < 0 ∨ (gmHeight gm : ℤ) ≤ mapy + stepy) := by
        push_neg
        exact ⟨by omega, by omega, by omega, by omega⟩
      rw [if_neg hnb]
      obtain ⟨v, hv⟩ := @cellAt_isSome_of_rect gm hrect (mapy + stepy) mapx
        hmy0 hmyh (by omega) (by omega)
      rw [hv]
      dsimp only
      by_cases hwall : 0 < v
      · rw [if_pos hwall]
        exact ⟨mapx, mapy + stepy, 1, rfl, by omega, by omega, hmy0, hmyh⟩
      · rw [if_neg hwall]
        obtain ⟨hi1, hi2, hj1, hj2⟩ := @open_cell_interior gm hb (mapy + stepy) mapx v
          hmy0 hmyh (by omega) (by omega) hv hwall
        refine ih mapx (mapy + stepy) stepx stepy sdx (PyF.add sdy ddy) ddx ddy
          hsx hsy hx1 hx2 hi1 hi2 ?_
        rw [dmeasure_step hsy]
        push_cast at hm ⊢
        omega

lemma pyInt_nonneg_eq {r : ℝ} {n : ℤ} (h0 : 0 ≤ r) (h1 : (n : ℝ) ≤ r) (h2 : r < n + 1) :
    pyInt r = n := by
  unfold pyInt
  rw [if_pos h0]
  exact Int.floor_eq_iff.mpr ⟨h1, h2⟩

lemma radOf_zero : radOf 0 = 0 := by unfold radOf; ring

lemma PyF.scale_fin (r a : ℝ) : PyF.scale r (PyF.fin a) = PyF.fin (r * a) := rfl

lemma PyF.scale_inf (r : ℝ) : PyF.scale r PyF.inf = PyF.inf := rfl

lemma PyF.add_fin (a b : ℝ) : PyF.add (PyF.fin a) (PyF.fin b) = PyF.fin (a + b) := rfl

/-- C1, amended to poses whose starting cell lies strictly inside the
border ring: for every rectangular map whose border cells are all
`Wall` and every pose whose cell `(int(player.x), int(player.y))` is in
the interior, the DDA loop of `cast_ray` terminates within
`width + height + 2` iterations (that much fuel suffices) and the hit
cell `(map_x, map_y)` it stops at satisfies `0 ≤ map_x < width` and
`0 ≤ map_y < height`, so the final read
`self.game_map[map_y][map_x]` at line 276 is inside the grid.  This
holds for every ray angle and arbitrary side-distance comparisons. -/
theorem claim1_cast_hit_in_bounds (gm : List (List ℤ)) (px py a : ℝ)
    (hrect : rectB gm = true) (hb : borderWallB gm = true)
    (hx1 : 1 ≤ pyInt px) (hx2 : pyInt px ≤ (gmWidth gm : ℤ) - 2)
    (hy1 : 1 ≤ pyInt py) (hy2 : pyInt py ≤ (gmHeight gm : ℤ) - 2) :
    ∃ mx my sd,
      castRayHit gm px py a (gmWidth gm + gmHeight gm + 2) = some (mx, my, sd)
        ∧ 0 ≤ mx ∧ mx < (gmWidth gm : ℤ) ∧ 0 ≤ my ∧ my < (gmHeight gm : ℤ) := by
  have hsx : (if Real.cos (radOf a) < 0 then (-1 : ℤ) else 1) = 1 ∨
      (if Real.cos (radOf a) < 0 then (-1 : ℤ) else 1) = -1 := by
    by_cases h : Real.cos (radOf a) < 0 <;> simp [h]
  have hsy : (if -Real.sin (radOf a) < 0 then (-1 : ℤ) else 1) = 1 ∨
      (if -Real.sin (radOf a) < 0 then (-1 : ℤ) else 1) = -1 := by
    by_cases h : -Real.sin (radOf a) < 0 <;> simp [h]
  have hm1 := dmeasure_le (W := (gmWidth gm : ℤ)) hsx hx1 hx2
  have hm2 := dmeasure_le (W := (gmHeight gm : ℤ)) hsy hy1 hy2
  simp only [castRayHit]
  exact ddaLoop_safe gm hrect hb (gmWidth gm + gmHeight gm + 2)
    (pyInt px) (pyInt py) _ _ _ _ _ _ hsx hsy hx1 hx2 hy1 hy2
    (by push_cast; omega)

/-- Witness: on the concrete 4 by 4 bordered map and the interior pose
`(1.5, 1.5)` with ray angle 0, the amended C1 theorem applies and the
hit cell is inside the grid. -/
theorem claim1_witness :
    rectB demoMap4 = true ∧ borderWallB demoMap4 = true ∧
    (1 ≤ pyInt (1.5 : ℝ) ∧ pyInt (1.5 : ℝ) ≤ (gmWidth demoMap4 : ℤ) - 2) ∧
    ∃ mx my sd,
      castRayHit demoMap4 1.5 1.5 0 (gmWidth demoMap4 + gmHeight demoMap4 + 2)
          = some (mx, my, sd)
        ∧ 0 ≤ mx ∧ mx < (gmWidth demoMap4 : ℤ)
        ∧ 0 ≤ my ∧ my < (gmHeight demoMap4 : ℤ) := by
  have h15 : pyInt (1.5 : ℝ) = 1 :=
    pyInt_nonneg_eq (by norm_num) (by norm_num) (by norm_num)
  refine ⟨by decide, by decide, ⟨by rw [h15], by rw [h15]; decide⟩, ?_⟩
  exact claim1_cast_hit_in_bounds demoMap4 1.5 1.5 0 (by decide) (by decide)
    (by rw [h15]) (by rw [h15]; decide) (by rw [h15]) (by rw [h15]; decide)

lemma ddaLoop_exit_x (gm : List (List ℤ)) (n : ℕ) (mapx mapy stepx stepy : ℤ)
    (sdx sdy ddx ddy : PyF) (h : PyF.lt sdx sdy)
    (hbound : mapx + stepx < 0 ∨ (gmWidth gm : ℤ) ≤ mapx + stepx ∨
      mapy < 0 ∨ (gmHeight gm : ℤ) ≤ mapy) :
    ddaLoop gm (n + 1) mapx mapy stepx stepy sdx sdy ddx ddy
      = some (mapx + stepx, mapy, 0) := by
  simp only [ddaLoop]
  rw [if_pos h, if_pos hbound]

/-- C1 counterexample: the claim quantifies over every pose, but from
the pose `(3.5, 1.5)` on the border column of the 4 by 4 all-wall-border
map, a ray at angle 0 steps straight out of the grid: the loop stops at
hit cell `(map_x, map_y) = (4, 1)` with `map_x = width = 4`, outside
grid bounds, so the final read `self.game_map[map_y][map_x]` indexes
outside the grid (an `IndexError` in Python). -/
theorem claim1_counterexample :
    rectB demoMap4 = true ∧ borderWallB demoMap4 = true ∧
    castRayHit demoMap4 3.5 1.5 0 10 = some (4, 1, 0) ∧
    ¬((4 : ℤ) < (gmWidth demoMap4 : ℤ)) := by
  have h35 : pyInt (3.5 : ℝ) = 3 :=
    pyInt_nonneg_eq (by norm_num) (by norm_num) (by norm_num)
  have h15 : pyInt (1.5 : ℝ) = 1 :=
    pyInt_nonneg_eq (by norm_num) (by norm_num) (by norm_num)
  refine ⟨by decide, by decide, ?_, by decide⟩
  have hcos : Real.cos (radOf 0) = 1 := by rw [radOf_zero, Real.cos_zero]
  have hsin : -Real.sin (radOf 0) = 0 := by rw [radOf_zero, Real.sin_zero, neg_zero]
  have h1 : ¬((1 : ℝ) < 0) := by norm_num
  have h0 : ¬((0 : ℝ) < 0) := by norm_num
  simp only [castRayHit, hcos, hsin, h35, h15]
  rw [if_pos (trivial : True)]
  rw [if_neg h1, if_neg h1, if_neg h0, if_neg h0]
  rw [if_neg (one_ne_zero : ¬((1 : ℝ) = 0))]
  rw [show (10 : ℕ) = 9 + 1 from rfl]
  exact ddaLoop_exit_x demoMap4 9 3 1 1 1 _ _ _ _ trivial (by decide)

lemma ddaLoop_cont_x (gm : List (List ℤ)) (n : ℕ) (mapx mapy stepx stepy : ℤ)
    (sdx sdy ddx ddy : PyF) (v : ℤ) (h : PyF.lt sdx sdy)
    (hnb : ¬(mapx + stepx < 0 ∨ (gmWidth gm : ℤ) ≤ mapx + stepx ∨
      mapy < 0 ∨ (gmHeight gm : ℤ) ≤ mapy))
    (hv : cellAt gm mapy (mapx + stepx) = some v) (hw : ¬ 0 < v) :
    ddaLoop gm (n + 1) mapx mapy stepx stepy sdx sdy ddx ddy
      = ddaLoop gm n (mapx + stepx) mapy stepx stepy (PyF.add sdx ddx) sdy ddx ddy := by
  simp only [ddaLoop]
  rw [if_pos h, if_neg hnb, hv]
  dsimp only
  rw [if_neg hw]

lemma ddaLoop_hit_x (gm : List (List ℤ)) (n : ℕ) (mapx mapy stepx stepy : ℤ)
    (sdx sdy ddx ddy : PyF) (v : ℤ) (h : PyF.lt sdx sdy)
    (hnb : ¬(mapx + stepx < 0 ∨ (gmWidth gm : ℤ) ≤ mapx + stepx ∨
      mapy < 0 ∨ (gmHeight gm : ℤ) ≤ mapy))
    (hv : cellAt gm mapy (mapx + stepx) = some v) (hw : 0 < v) :
    ddaLoop gm (n + 1) mapx mapy stepx stepy sdx sdy ddx ddy
      = some (mapx + stepx, mapy, 0) := by
  simp only [ddaLoop]
  rw [if_pos h, if_neg hnb, hv]
  dsimp only
  rw [if_pos hw]

lemma castRayHit_demo : castRayHit demoMap4 1.5 1.5 0 10 = some (3, 1, 0) := by
  have h15 : pyInt (1.5 : ℝ) = 1 :=
    pyInt_nonneg_eq (by norm_num) (by norm_num) (by norm_num)
  have hcos : Real.cos (radOf 0) = 1 := by rw [radOf_zero, Real.cos_zero]
  have hsin : -Real.sin (radOf 0) = 0 := by rw [radOf_zero, Real.sin_zero, neg_zero]
  have h1 : ¬((1 : ℝ) < 0) := by norm_num
  have h0 : ¬((0 : ℝ) < 0) := by norm_num
  simp only [castRayHit, hcos, hsin, h15]
  rw [if_pos (trivial : True)]
  rw [if_neg h1, if_neg h1, if_neg h0, if_neg h0]
  rw [if_neg (one_ne_zero : ¬((1 : ℝ) = 0))]
  rw [show (10 : ℕ) = 9 + 1 from rfl]
  rw [ddaLoop_cont_x demoMap4 9 1 1 1 1
    (PyF.scale (((1 : ℤ) : ℝ) + 1 - 1.5) (PyF.fin |1 / 1|))
    (PyF.scale (((1 : ℤ) : ℝ) + 1 - 1.5) PyF.inf)
    (PyF.fin |1 / 1|) PyF.inf 0 trivial (by decide) (by decide) (by norm_num)]
  rw [show (9 : ℕ) = 8 + 1 from rfl]
  rw [show (1 : ℤ) + 1 = 2 from rfl]
  exact ddaLoop_hit_x demoMap4 8 2 1 1 1 _ _ _ _ 1 trivial (by decide) (by decide)
    (by norm_num)

lemma sqrt3_sq : Real.sqrt 3 * Real.sqrt 3 = 3 := Real.mul_self_sqrt (by norm_num)

lemma sqrt3_lt : Real.sqrt 3 < 1.754 := by
  nlinarith [sqrt3_sq, Real.sqrt_nonneg 3]

lemma sqrt3_gt : (1.67 : ℝ) < Real.sqrt 3 := by
  nlinarith [sqrt3_sq, Real.sqrt_nonneg 3]

lemma radOf_neg30 : radOf (-30) = -(Real.pi / 6) := by unfold radOf; ring

lemma cos_neg30 : Real.cos (radOf (-30)) = Real.sqrt 3 / 2 := by
  rw [radOf_neg30, Real.cos_neg, Real.cos_pi_div_six]

lemma castRay_demo :
    castRay demoMap4 1.5 1.5 30 (rayAngleAt 30 0) 10 = some (3 * Real.sqrt 3 / 4) := by
  have hang : rayAngleAt 30 0 = 0 := by unfold rayAngleAt; norm_num
  rw [hang]
  have hcos : Real.cos (radOf 0) = 1 := by rw [radOf_zero, Real.cos_zero]
  have h1 : ¬((1 : ℝ) < 0) := by norm_num
  have h0 : ¬((0 : ℝ) < 0) := by norm_num
  have hsin : -Real.sin (radOf 0) = 0 := by rw [radOf_zero, Real.sin_zero, neg_zero]
  simp only [castRay, castRayHit_demo, hcos, hsin, Option.map_some]
  rw [if_neg h1, if_neg h0]
  norm_num
  rw [cos_neg30]
  ring

/-- C10 counterexample: on the 4 by 4 bordered map with the player at
`(1.5, 1.5)` facing 30 degrees, rendered column `x = 0` casts a ray at
angle 0; `cast_ray` returns the already-corrected distance
`3 * sqrt 3 / 4`, but `render` multiplies by
`cos(radians(angle - player.angle))` a second time before dividing,
producing a wall-slice height of 22 instead of
`int(25 / (3 * sqrt 3 / 4)) = 19`: so the slice height is not
`screen_height` divided by the distance `cast` returns, i.e. the
fisheye correction is not applied exactly once across the pipeline. -/
theorem claim10_counterexample :
    castRay demoMap4 1.5 1.5 30 (rayAngleAt 30 0) 10 = some (3 * Real.sqrt 3 / 4) ∧
    lineHeight (renderDist (3 * Real.sqrt 3 / 4) (rayAngleAt 30 0) 30) = 22 ∧
    pyInt (25 / (3 * Real.sqrt 3 / 4)) = 19 ∧ (22 : ℤ) ≠ 19 := by
  have hang : rayAngleAt 30 0 = 0 := by unfold rayAngleAt; norm_num
  have hs3 := sqrt3_sq
  have hlt := sqrt3_lt
  have hgt := sqrt3_gt
  have hpos : (0 : ℝ) < Real.sqrt 3 := by linarith
  refine ⟨castRay_demo, ?_, ?_, by decide⟩
  · have hrd : renderDist (3 * Real.sqrt 3 / 4) (rayAngleAt 30 0) 30 = 9 / 8 := by
      unfold renderDist
      rw [hang]
      norm_num
      rw [cos_neg30]
      nlinarith [hs3]
    rw [hrd]
    unfold lineHeight
    rw [if_pos (by norm_num : (0 : ℝ) < 9 / 8)]
    exact pyInt_nonneg_eq (by norm_num) (by norm_num) (by norm_num)
  · have hq : (0 : ℝ) < 3 * Real.sqrt 3 / 4 := by linarith
    refine pyInt_nonneg_eq (by positivity) ?_ ?_
    · rw [le_div_iff hq]
      nlinarith
    · rw [div_lt_iff hq]
      nlinarith

/-- C10 amended: across the cast-then-render pipeline the fisheye
factor `cos(ray_angle - facing)` is applied twice, once inside
`cast_ray` (line 274) and once more in `render` (line 551): for every
raw perpendicular distance `perp > 0` and every ray with positive
correction factor `c`, the rendered wall-slice height equals
`int(screen_height / (perp * c^2))`, not `screen_height` divided by the
distance `cast` returns. -/
theorem claim10_double_correction (perp a pangle : ℝ) (hp : 0 < perp)
    (hc : 0 < Real.cos (radOf (a - pangle))) :
    lineHeight (renderDist (perp * Real.cos (radOf (a - pangle))) a pangle)
      = pyInt (25 / (perp * Real.cos (radOf (a - pangle)) ^ 2)) := by
  unfold renderDist lineHeight
  rw [if_pos (by positivity)]
  congr 1
  ring_nf

/-- Witness for the amended C10 theorem at `perp = 2`, ray angle 0 and
facing 60 degrees, where the correction factor is `cos(-60°) = 1/2`:
both sides evaluate to 50. -/
theorem claim10_witness :
    (0 : ℝ) < 2 ∧ 0 < Real.cos (radOf (0 - 60)) ∧
    lineHeight (renderDist ((2 : ℝ) * Real.cos (radOf (0 - 60))) 0 60)
      = pyInt (25 / (2 * Real.cos (radOf (0 - 60)) ^ 2)) ∧
    pyInt (25 / ((2 : ℝ) * Real.cos (radOf (0 - 60)) ^ 2)) = 50 := by
  have hr : radOf (0 - 60) = -(Real.pi / 3) := by unfold radOf; ring
  have hcos : Real.cos (radOf (0 - 60)) = 1 / 2 := by
    rw [hr, Real.cos_neg, Real.cos_pi_div_three]
  refine ⟨by norm_num, by rw [hcos]; norm_num,
    claim10_double_correction 2 0 60 (by norm_num) (by rw [hcos]; norm_num), ?_⟩
  rw [hcos]
  have : (25 : ℝ) / (2 * (1 / 2) ^ 2) = 50 := by norm_num
  rw [this]
  exact pyInt_nonneg_eq (by norm_num) (by norm_num) (by norm_num)

/-!  ## Game data model (lines 50-154 of the source) -/

/-- Game difficulty modes. -/
inductive Mode
  | simple
  | medium
  | advanced
deriving DecidableEq

/-- Weapon kinds. -/
inductive WpnKind
  | pistol
  | rifle
  | knife
  | shotgun
deriving DecidableEq

/-- Weapon configuration record. -/
structure Weapon where
  name : String
  damage : ℤ
  maxAmmo : ℤ
  reloadTime : ℚ
  fireRate : ℚ
  spread : ℚ
  color : String

/-- The WEAPONS table (lines 89-94). -/
def WEAPONS : WpnKind → Weapon
  | .pistol => ⟨"Pistol", 25, 12, 1, 0.5, 0.1, "P"⟩
  | .rifle => ⟨"Rifle", 35, 30, 2, 0.15, 0.05, "R"⟩
  | .knife => ⟨"Knife", 50, 999, 0.3, 0.8, 0.3, "K"⟩
  | .shotgun => ⟨"Shotgun", 80, 8, 2.5, 1, 0.4, "S"⟩

/-- Enemy kinds; the Python dict key of `shotgunner` is the string
`shotgun`. -/
inductive EKind
  | grunt
  | shotgunner
  | sniper
  | boss
deriving DecidableEq

/-- Enemy type configuration record. -/
structure EnemyType where
  name : String
  health : ℤ
  damage : ℤ
  speed : ℝ
  color : ℤ
  points : ℤ

/-- The ENEMY_TYPES table (lines 97-102). -/
noncomputable def ENEMY_TYPES : EKind → EnemyType
  | .grunt => ⟨"Grunt", 100, 10, 0.03, 5, 100⟩
  | .shotgunner => ⟨"Shotgunner", 150, 25, 0.02, 6, 200⟩
  | .sniper => ⟨"Sniper", 80, 50, 0.01, 7, 300⟩
  | .boss => ⟨"Boss", 500, 30, 0.015, 8, 1000⟩

/-- Powerup kinds. -/
inductive PKind
  | health
  | ammo
  | armor
  | damage
  | speed
deriving DecidableEq

/-- The `value` column of the POWERUPS table (lines 105-111). -/
def puValue : PKind → ℤ
  | .health => 50
  | .ammo => 30
  | .armor => 50
  | .damage => 2
  | .speed => 2

/-- An Enemy object (lines 136-144).  The `last_shot` and `state`
fields of the Python class are written once at construction and never
read anywhere in the program, so they are not carried. -/
structure Enemy where
  x : ℝ
  y : ℝ
  kind : EKind
  health : ℤ
  alive : Bool

/-- A Powerup object (lines 147-154). -/
structure Powerup where
  x : ℝ
  y : ℝ
  kind : PKind
  active : Bool

/-- The whole mutable game state: the fields of `Game` together with
the fields of its `Player` (lines 121-134 and 282-305).  `gLastShot`
and `gLastReload` model the attributes `Game.last_shot` /
`Game.last_reload` read by `shoot`/`reload`; they are *absent*
(`none`) on a fresh `Game` because `__init__` never sets them (only
`Player.__init__` sets its own `last_shot`/`last_reload`, carried
separately as `pLastShot`/`pLastReload`). -/
structure GState where
  mode : Mode
  gameOver : Bool
  paused : Bool
  score : ℤ
  wave : ℤ
  gameMap : List (List ℤ)
  px : ℝ
  py : ℝ
  angle : ℝ
  health : ℤ
  armor : ℤ
  weapon : WpnKind
  ammo : WpnKind → Option ℤ
  pLastShot : ℚ
  pLastReload : ℚ
  damageMult : ℝ
  speedMult : ℝ
  gLastShot : Option ℚ
  gLastReload : Option ℚ
  enemies : List Enemy
  powerups : List Powerup

/-!  ## Maps (`GameMap`, lines 156-213) -/

/-- The fixed ASCII arena template (lines 159-177), verbatim: note that
four of its rows are 23 characters long while the others are 24. -/
def ARENA_MAP : List String :=
  [ "########################",
    "#......................#",
    "#..####..........####..#",
    "#..#..............#....#",
    "#..#....#######...#....#",
    "#......#.......#......#",
    "#......#.......#......#",
    "#...####.......####...#",
    "#......................#",
    "#...####.......####...#",
    "#......#.......#......#",
    "#......#.......#......#",
    "#..#....#######...#....#",
    "#..#..............#....#",
    "#..####..........####..#",
    "#......................#",
    "########################" ]

/-- `GameMap.load_arena` (lines 207-213): `#` becomes wall (1),
anything else open (0). -/
def loadArena : List (List ℤ) :=
  ARENA_MAP.map fun row => row.toList.map fun c => if c = '#' then (1 : ℤ) else 0

/-- The grid `generate_random` has built just before stamping the random
blobs (lines 182-190): all `Open` with the border rows and columns
assigned to `Wall` by the two border loops. -/
def baseGrid (w h : ℕ) : List (List ℤ) :=
  (List.range h).map fun y =>
    (List.range w).map fun x =>
      if y = 0 ∨ y = h - 1 ∨ x = 0 ∨ x = w - 1 then (1 : ℤ) else 0

/-- Setting one grid cell to a value (row `y`, column `x`). -/
def set2d (gm : List (List ℤ)) (y x : ℕ) (v : ℤ) : List (List ℤ) :=
  gm.set y ((gm.getD y []).set x v)

/-- One cell write of the blob-stamping loop (lines 200-203): guarded by
the chained comparisons `1 < y + dy < height - 2` and
`1 < x + dx < width - 2`. -/
def stampCell (w h : ℕ) (gm : List (List ℤ)) (x y : ℤ) : List (List ℤ) :=
  if 1 < y ∧ y < (h : ℤ) - 2 ∧ 1 < x ∧ x < (w : ℤ) - 2 then
    set2d gm y.toNat x.toNat 1
  else gm

/-- Offsets `range(-size, size + 1)` of the stamping loops. -/
def blobOffsets (size : ℤ) : List ℤ :=
  (List.range (2 * size + 1).toNat).map fun k => (k : ℤ) - size

/-- Stamping one random square blob (lines 195-203), `t = (x, y, size)`
being the three `randint` draws. -/
def stampBlob (w h : ℕ) (gm : List (List ℤ)) (t : ℤ × ℤ × ℤ) : List (List ℤ) :=
  (blobOffsets t.2.2).foldl
    (fun g dy =>
      (blobOffsets t.2.2).foldl (fun g2 dx => stampCell w h g2 (t.1 + dx) (t.2.1 + dy)) g)
    gm

/-- `GameMap.generate_random` (lines 180-205) with the `randint` draws
of the wall loop supplied as the list `walls`. -/
def generateRandom (w h : ℕ) (walls : List (ℤ × ℤ × ℤ)) : List (List ℤ) :=
  walls.foldl (stampBlob w h) (baseGrid w h)

/-!  ## Randomness oracles

The game consumes randomness (`random.randint`, `random.choice`,
`random.random`, `random.uniform`) and runs unbounded `while` loops;
both are passed in explicitly.  A real execution corresponds to an
oracle recording the drawn values and large enough fuels. -/

/-- The `randint`/`choice` draws consumed by one `spawn_enemies` call:
for enemy slot `i`, `epos i` is the list of candidate `(x, y)`
positions tried by the rejection loop (lines 327-331), and `ekind i`
the `random.choice(['grunt', 'shotgun', 'sniper'])` pick; `pcount` is
`randint(1, 3)` and `ppos`/`pkind` the corresponding powerup draws
(lines 346-354). -/
structure SpawnData where
  epos : ℕ → List (ℤ × ℤ)
  ekind : ℕ → EKind
  pcount : ℕ
  ppos : ℕ → List (ℤ × ℤ)
  pkind : ℕ → PKind

/-- All randomness and loop fuel for one tick. -/
structure Oracle where
  sp : SpawnData
  rand : ℕ → ℝ
  uni : ℕ → ℝ
  losFuel : ℕ
  shootFuel : ℕ

/-- The ranges Python's random module guarantees for the drawn values:
`randint(2, MAP_WIDTH - 3) ∈ [2, 21]`, `choice` picks from the given
three kinds, `randint(1, 3) ∈ [1, 3]`, `random() ∈ [0, 1)`,
`uniform(0.8, 1.2) ∈ [0.8, 1.2]`. -/
def OracleValid (o : Oracle) : Prop :=
  (∀ i p, p ∈ o.sp.epos i → 2 ≤ p.1 ∧ p.1 ≤ 21 ∧ 2 ≤ p.2 ∧ p.2 ≤ 21) ∧
  (∀ i, o.sp.ekind i = EKind.grunt ∨ o.sp.ekind i = EKind.shotgunner ∨
    o.sp.ekind i = EKind.sniper) ∧
  (1 ≤ o.sp.pcount ∧ o.sp.pcount ≤ 3) ∧
  (∀ i p, p ∈ o.sp.ppos i → 2 ≤ p.1 ∧ p.1 ≤ 21 ∧ 2 ≤ p.2 ∧ p.2 ≤ 21) ∧
  (∀ i, 0 ≤ o.rand i ∧ o.rand i < 1) ∧
  (∀ i, 0.8 ≤ o.uni i ∧ o.uni i ≤ 1.2)

/-!  ## Spawning (`Game.spawn_enemies`, lines 320-354) -/

open Classical in
/-- The acceptance test of the enemy-position rejection loop
(lines 328-331): `dist > 5 and self.game_map[y][x] == 0`.  The `and`
short-circuits, so the grid access (which can raise `IndexError` for
`y` beyond the map height, modelled `none`) happens only when
`dist > 5`. -/
noncomputable def acceptEnemyPos (gm : List (List ℤ)) (px py : ℝ) (c : ℤ × ℤ) :
    Option Bool :=
  if 5 < Real.sqrt (((c.1 : ℝ) - px) ^ 2 + ((c.2 : ℝ) - py) ^ 2) then
    match cellPy gm c.2 c.1 with
    | none => none
    | some v => some (v == 0)
  else some false

/-- The rejection loop itself: first accepted candidate wins; `none`
when the draws run out (the Python loop would keep drawing) or an
access raised. -/
noncomputable def findEnemyPos (gm : List (List ℤ)) (px py : ℝ) :
    List (ℤ × ℤ) → Option (ℤ × ℤ)
  | [] => none
  | c :: rest =>
    match acceptEnemyPos gm px py c with
    | none => none
    | some true => some c
    | some false => findEnemyPos gm px py rest

/-- Enemy type selection (lines 334-342): `grunt` in Simple mode, a
random choice in Medium, and in Advanced the first slot of every third
wave is a boss. -/
def enemyKindFor (mode : Mode) (wave : ℤ) (i : ℕ) (pick : EKind) : EKind :=
  match mode with
  | .simple => .grunt
  | .medium => pick
  | .advanced => if wave % 3 = 0 ∧ i = 0 then .boss else pick

/-- Enemy construction (lines 138-144): full type health, alive. -/
noncomputable def mkEnemy (c : ℤ × ℤ) (k : EKind) : Enemy :=
  ⟨(c.1 : ℝ), (c.2 : ℝ), k, (ENEMY_TYPES k).health, true⟩

/-- The enemy batch spawned for a wave: `min(3 + wave * 2, 10)` slots
(line 324), each given a position by the rejection loop. -/
noncomputable def spawnEnemyList (gm : List (List ℤ)) (mode : Mode) (wave : ℤ)
    (px py : ℝ) (sp : SpawnData) : Option (List Enemy) :=
  (List.range (min (3 + wave * 2) 10).toNat).mapM fun i =>
    (findEnemyPos gm px py (sp.epos i)).map fun c =>
      mkEnemy c (enemyKindFor mode wave i (sp.ekind i))

/-- The powerup-position rejection test (lines 348-351): only the grid
check, no distance condition. -/
def acceptPuPos (gm : List (List ℤ)) (c : ℤ × ℤ) : Option Bool :=
  match cellPy gm c.2 c.1 with
  | none => none
  | some v => some (v == 0)

/-- Powerup-position rejection loop. -/
def findPuPos (gm : List (List ℤ)) : List (ℤ × ℤ) → Option (ℤ × ℤ)
  | [] => none
  | c :: rest =>
    match acceptPuPos gm c with
    | none => none
    | some true => some c
    | some false => findPuPos gm rest

/-- The powerup batch of an Advanced-mode spawn (lines 346-354). -/
def spawnPowerupList (gm : List (List ℤ)) (sp : SpawnData) : Option (List Powerup) :=
  (List.range sp.pcount).mapM fun i =>
    (findPuPos gm (sp.ppos i)).map fun c =>
      (⟨(c.1 : ℝ), (c.2 : ℝ), sp.pkind i, true⟩ : Powerup)

/-- `Game.spawn_enemies` (lines 320-354): clears the enemy list and
fills a fresh batch; in Advanced mode additionally *appends* new
powerups (the powerup list is never cleared).  `none` models an
execution that raised (grid access beyond the map) or whose recorded
draws ran out. -/
noncomputable def spawnEnemies (s : GState) (sp : SpawnData) : Option GState :=
  (spawnEnemyList s.gameMap s.mode s.wave s.px s.py sp).bind fun es =>
    if s.mode = Mode.advanced then
      (spawnPowerupList s.gameMap sp).map fun ps =>
        { s with enemies := es, powerups := s.powerups ++ ps }
    else some { s with enemies := es }

/-- `Game.check_wave_complete` (lines 535-540): when every enemy is
dead, increment the wave, heal by 20 clamped to 100, and respawn. -/
noncomputable def checkWaveComplete (s : GState) (sp : SpawnData) : Option GState :=
  if s.enemies.all fun e => !e.alive then
    spawnEnemies
      { s with wave := s.wave + 1, health := min 100 (s.health + 20) } sp
  else some s

/-!  ## Line of sight (`Game.check_line_of_sight`, lines 442-464) -/

open Classical in
/-- The Bresenham-style walk.  The Python loop is `while True`;
fuel models its (un)boundedness, `none` standing for running out of
fuel or for an `IndexError` from the grid access. -/
noncomputable def losLoop (gm : List (List ℤ)) :
    ℕ → ℝ → ℝ → ℝ → ℝ → ℝ → ℝ → ℝ → ℝ → ℝ → Option Bool
  | 0, _, _, _, _, _, _, _, _, _ => none
  | fuel+1, x, y, x2, y2, sx, sy, dx, dy, err =>
    if pyInt x = pyInt x2 ∧ pyInt y = pyInt y2 then some true
    else
      match cellPy gm (pyInt y) (pyInt x) with
      | none => none
      | some v =>
        if v ≠ 0 then some false
        else
          let e2 := 2 * err
          let err1 := if -dy < e2 then err - dy else err
          let x1 := if -dy < e2 then x + sx else x
          let y1 := if e2 < dx then y + sy else y
          losLoop gm fuel x1 y1 x2 y2 sx sy dx dy
            (if e2 < dx then err1 + dx else err1)

open Classical in
/-- `check_line_of_sight` (lines 442-464). -/
noncomputable def checkLineOfSight (gm : List (List ℤ)) (x1 y1 x2 y2 : ℝ)
    (fuel : ℕ) : Option Bool :=
  losLoop gm fuel x1 y1 x2 y2
    (if x1 < x2 then 1 else -1) (if y1 < y2 then 1 else -1)
    |x2 - x1| |y2 - y1| (|x2 - x1| - |y2 - y1|)

/-!  ## Combat (`Game.shoot`, lines 404-440; `Game.reload`, 466-475) -/

open Classical in
/-- Ammo-dictionary update `ammo[w] = f(ammo[w])`; a missing key stays
missing (the corresponding Python `KeyError` is unreachable at the two
call sites because the gate `ammo.get(weapon, 0) <= 0` has just passed). -/
noncomputable def updAmmo (a : WpnKind → Option ℤ) (w : WpnKind) (f : ℤ → ℤ) :
    WpnKind → Option ℤ :=
  fun w2 => if w2 = w then (a w2).map f else a w2

open Classical in
/-- Ammo-dictionary assignment `ammo[w] = v` (creates the key). -/
noncomputable def setAmmo (a : WpnKind → Option ℤ) (w : WpnKind) (v : ℤ) :
    WpnKind → Option ℤ :=
  fun w2 => if w2 = w then some v else a w2

open Classical in
/-- The hitscan loop of `shoot` (lines 418-440).  CPython iterates
`for enemy in self.enemies` by index over the current list object, and
`check_wave_complete` called inside the loop can clear and refill that
very list, so the loop is modelled by index.  `Except.error` carries
the state at which an exception escaped (only possible inside
`spawn_enemies`, an unreachable path in real sessions, see C3);
`none` models non-termination (fuel). -/
noncomputable def shootLoop (o : Oracle) : ℕ → GState → ℕ → Option (Except GState GState)
  | 0, _, _ => none
  | fuel+1, s, i =>
    match s.enemies.get? i with
    | none => some (Except.ok s)
    | some e =>
      if e.alive = false then shootLoop o fuel s (i+1)
      else
        let dx := e.x - s.px
        let dy := e.y - s.py
        let dist := Real.sqrt (dx * dx + dy * dy)
        if 20 < dist then shootLoop o fuel s (i+1)
        else
          let ate := pyModR (degOf (pyAtan2 (-dy) dx)) 360
          let adiff := pyModR (ate - s.angle + 180) 360 - 180
          if |adiff| < 10 then
            match checkLineOfSight s.gameMap s.px s.py e.x e.y o.losFuel with
            | none => none
            | some false => shootLoop o fuel s (i+1)
            | some true =>
              let dmg := pyInt (((WEAPONS s.weapon).damage : ℝ) * s.damageMult)
              let e1 : Enemy := { e with health := e.health - dmg }
              if e1.health ≤ 0 then
                let s1 := { s with
                  enemies := s.enemies.set i { e1 with alive := false },
                  score := s.score + (ENEMY_TYPES e.kind).points }
                match checkWaveComplete s1 o.sp with
                | none => some (Except.error s1)
                | some s2 => shootLoop o fuel s2 (i+1)
              else shootLoop o fuel { s with enemies := s.enemies.set i e1 } (i+1)
          else shootLoop o fuel s (i+1)

open Classical in
/-- `Game.shoot` (lines 404-440).  The very first statement touching
state, `current_time - self.last_shot` (line 409), reads the attribute
`Game.last_shot`; when it is absent (`none`) an `AttributeError` is
raised before any gate or mutation, modelled by `Except.error` with
the state unchanged.  Otherwise the fire-rate gate, the
`ammo.get(weapon, 0) <= 0` gate, the timestamp/ammo writes and the
hitscan loop follow the source order. -/
noncomputable def shoot (s : GState) (t : ℚ) (o : Oracle) :
    Option (Except GState GState) :=
  match s.gLastShot with
  | none => some (Except.error s)
  | some ls =>
    if t - ls < (WEAPONS s.weapon).fireRate then some (Except.ok s)
    else if ((s.ammo s.weapon).getD 0) ≤ 0 then some (Except.ok s)
    else
      shootLoop o o.shootFuel
        { s with gLastShot := some t,
                 ammo := updAmmo s.ammo s.weapon (fun v => v - 1) } 0

open Classical in
/-- `Game.reload` (lines 466-475): reading `self.last_reload`
(line 471) raises `AttributeError` when the attribute is absent;
otherwise the cooldown gate and the refill to `weapon.max_ammo`. -/
noncomputable def reload (s : GState) (t : ℚ) : Except GState GState :=
  match s.gLastReload with
  | none => Except.error s
  | some lr =>
    if t - lr < (WEAPONS s.weapon).reloadTime then Except.ok s
    else Except.ok
      { s with gLastReload := some t,
               ammo := setAmmo s.ammo s.weapon (WEAPONS s.weapon).maxAmmo }

/-!  ## Enemy AI (`Game.update_enemies`, lines 477-510) -/

open Classical in
/-- One enemy's AI step: seek the player when `dist > 2` (move rejected
unless the destination cell is open; an out-of-bounds access is a crash,
`none`), then in Medium/Advanced a 2 percent chance attack with
line-of-sight check, damage `int(type.damage * uniform(0.8, 1.2))`
absorbed by armor first; `health <= 0` sets game over. -/
noncomputable def enemyStep (s : GState) (i : ℕ) (r u : ℝ) (losF : ℕ) :
    Option GState :=
  match s.enemies.get? i with
  | none => some s
  | some e =>
    if e.alive = false then some s
    else
      let dx := s.px - e.x
      let dy := s.py - e.y
      let dist := Real.sqrt (dx * dx + dy * dy)
      let moved : Option (GState × Enemy) :=
        if 2 < dist then
          let mx := e.x + dx / dist * (ENEMY_TYPES e.kind).speed
          let my := e.y + dy / dist * (ENEMY_TYPES e.kind).speed
          match cellPy s.gameMap (pyInt my) (pyInt mx) with
          | none => none
          | some v =>
            if v = 0 then
              let e1 : Enemy := { e with x := mx, y := my }
              some ({ s with enemies := s.enemies.set i e1 }, e1)
            else some (s, e)
        else some (s, e)
      moved.bind fun se =>
        if s.mode = Mode.medium ∨ s.mode = Mode.advanced then
          if dist < 20 ∧ r < 0.02 then
            match checkLineOfSight se.1.gameMap se.2.x se.2.y se.1.px se.1.py losF with
            | none => none
            | some false => some se.1
            | some true =>
              let dmg := pyInt (((ENEMY_TYPES se.2.kind).damage : ℝ) * u)
              let ad := if 0 < se.1.armor then min dmg se.1.armor else 0
              let health1 := se.1.health - (dmg - ad)
              some
                { se.1 with armor := se.1.armor - ad,
                            health := health1,
                            gameOver := if health1 ≤ 0 then true else se.1.gameOver }
          else some se.1
        else some se.1

open Classical in
/-- `Game.update_enemies` (lines 477-510): a no-op in Simple mode,
otherwise each enemy steps in list order. -/
noncomputable def updateEnemies (s : GState) (o : Oracle) : Option GState :=
  if s.mode = Mode.simple then some s
  else
    (List.range s.enemies.length).foldlM
      (fun st i => enemyStep st i (o.rand i) (o.uni i) o.losFuel) s

/-!  ## Pickups (`Game.check_powerups`, lines 512-533) -/

open Classical in
/-- Processing one powerup of the pickup pass: an active powerup within
0.5 map units applies its dict-dispatched effect and is deactivated. -/
noncomputable def puStep (s : GState) (i : ℕ) : GState :=
  match s.powerups.get? i with
  | none => s
  | some p =>
    if p.active = false then s
    else
      let dx := s.px - p.x
      let dy := s.py - p.y
      if Real.sqrt (dx * dx + dy * dy) < 0.5 then
        let s1 :=
          match p.kind with
          | PKind.health => { s with health := min 100 (s.health + puValue PKind.health) }
          | PKind.ammo =>
            { s with ammo := fun w => (s.ammo w).map fun v => v + puValue PKind.ammo }
          | PKind.armor => { s with armor := min 100 (s.armor + puValue PKind.armor) }
          | PKind.damage => { s with damageMult := ((puValue PKind.damage : ℤ) : ℝ) }
          | PKind.speed => { s with speedMult := ((puValue PKind.speed : ℤ) : ℝ) }
        { s1 with powerups := s1.powerups.set i { p with active := false } }
      else s

open Classical in
/-- `Game.check_powerups` (lines 512-533): the pickup pass over the
whole powerup list in order. -/
noncomputable def checkPowerups (s : GState) : GState :=
  (List.range s.powerups.length).foldl puStep s

/-!  ## Input (`Game.get_input`, lines 356-402) -/

/-- The keys `get_input` distinguishes; `other` covers every other
`getch` result including "no key pending". -/
inductive Key
  | kw
  | ks
  | ka
  | kd
  | fire
  | k1
  | k2
  | k3
  | kr
  | kp
  | kq
  | other
deriving DecidableEq

open Classical in
/-- The guarded position update of the movement branches
(lines 364-374): the grid read uses Python indexing (negative indices
wrap); an `IndexError` is caught by the bare `except` of `get_input`
with the position left unchanged. -/
noncomputable def tryMove (s : GState) (nx ny : ℝ) : GState :=
  match cellPy s.gameMap (pyInt ny) (pyInt nx) with
  | some v => if v = 0 then { s with px := nx, py := ny } else s
  | none => s

open Classical in
/-- `Game.get_input` (lines 356-402): dispatch on the key.  The whole
body is wrapped in `try ... except: pass`, so the `AttributeError`
escaping from `shoot`/`reload` is swallowed with whatever state the
raising call left behind; `none` models a non-returning execution
(unbounded loop inside `shoot`). -/
noncomputable def getInput (s : GState) (k : Key) (t : ℚ) (o : Oracle) :
    Option GState :=
  match k with
  | .kw =>
    let ms := 0.1 * s.speedMult
    some (tryMove s (s.px + Real.cos (radOf s.angle) * ms)
                    (s.py - Real.sin (radOf s.angle) * ms))
  | .ks =>
    let ms := 0.1 * s.speedMult
    some (tryMove s (s.px - Real.cos (radOf s.angle) * ms)
                    (s.py + Real.sin (radOf s.angle) * ms))
  | .ka => some { s with angle := pyModR (s.angle - 3) 360 }
  | .kd => some { s with angle := pyModR (s.angle + 3) 360 }
  | .fire =>
    match shoot s t o with
    | none => none
    | some (Except.ok s1) => some s1
    | some (Except.error s1) => some s1
  | .k1 => some { s with weapon := WpnKind.pistol }
  | .k2 => some { s with weapon := WpnKind.rifle }
  | .k3 => some { s with weapon := WpnKind.knife }
  | .kr =>
    match reload s t with
    | Except.ok s1 => some s1
    | Except.error s1 => some s1
  | .kp => some { s with paused := !s.paused }
  | .kq => some { s with gameOver := true }
  | .other => some s

/-!  ## Game loop body and sessions (`Game.run`, lines 667-680;
`Game.__init__`, lines 282-305) -/

open Classical in
/-- One iteration of the main loop (lines 672-680): `get_input` always
runs; `update_enemies` and `check_powerups` run only when not paused
*after* input handling; rendering reads the state without mutating it. -/
noncomputable def tick (s : GState) (k : Key) (t : ℚ) (o : Oracle) : Option GState :=
  (getInput s k t o).bind fun s1 =>
    if s1.paused then some s1
    else (updateEnemies s1 o).map checkPowerups

/-- The initial ammo dictionary of `Player.__init__` (line 129): no
entry for the knife. -/
def initAmmo : WpnKind → Option ℤ
  | .pistol => some 12
  | .rifle => some 30
  | .shotgun => some 8
  | .knife => none

/-- Map selection of `Game.__init__`. -/
inductive MapSel
  | arena
  | randomMap
deriving DecidableEq

/-- The state assembled by `Game.__init__` (lines 282-305) before
`spawn_enemies` runs: fresh flags and counters, the selected map, a
`Player(3.5, 3.5)`, and crucially no `last_shot`/`last_reload`
attribute on the Game object itself. -/
def preGame (mode : Mode) (ms : MapSel) (walls : List (ℤ × ℤ × ℤ)) : GState :=
  { mode := mode
    gameOver := false
    paused := false
    score := 0
    wave := 1
    gameMap := match ms with
      | .arena => loadArena
      | .randomMap => generateRandom 24 24 walls
    px := 3.5
    py := 3.5
    angle := 0
    health := 100
    armor := 0
    weapon := WpnKind.pistol
    ammo := initAmmo
    pLastShot := 0
    pLastReload := 0
    damageMult := 1
    speedMult := 1
    gLastShot := none
    gLastReload := none
    enemies := []
    powerups := [] }

open Classical in
/-- `Game.__init__` (lines 282-305): the pre-state followed by the
initial `spawn_enemies()` call. -/
noncomputable def mkGame (mode : Mode) (ms : MapSel) (walls : List (ℤ × ℤ × ℤ))
    (sp : SpawnData) : Option GState :=
  spawnEnemies (preGame mode ms walls) sp

/-- One observable step of a session: some key (or none pending), some
wall-clock time, and randomness within the ranges Python guarantees. -/
def Step (s s2 : GState) : Prop :=
  ∃ k t o, OracleValid o ∧ tick s k t o = some s2

/-- States produced by `Game.__init__`. -/
def InitState (s : GState) : Prop :=
  ∃ mode ms walls o, OracleValid o ∧ mkGame mode ms walls (Oracle.sp o) = some s

/-- States reachable in some session. -/
def Reachable (s : GState) : Prop :=
  ∃ s0, InitState s0 ∧ Relation.ReflTransGen Step s0 s

/-!  ## Basic facts about `shoot` and `reload` -/

lemma shoot_none (s : GState) (t : ℚ) (o : Oracle) (h : s.gLastShot = none) :
    shoot s t o = some (Except.error s) := by
  unfold shoot
  rw [h]

lemma reload_none (s : GState) (t : ℚ) (h : s.gLastReload = none) :
    reload s t = Except.error s := by
  unfold reload
  rw [h]

lemma getInput_fire_of_none (s : GState) (t : ℚ) (o : Oracle)
    (h : s.gLastShot = none) : getInput s Key.fire t o = some s := by
  unfold getInput
  rw [shoot_none s t o h]

lemma getInput_reload_of_none (s : GState) (t : ℚ) (o : Oracle)
    (h : s.gLastReload = none) : getInput s Key.kr t o = some s := by
  unfold getInput
  rw [reload_none s t h]

/-!  ## A concrete session start

A fully explicit `Game.__init__` run: Simple mode, arena map, the
spawn rejection loop drawing `(x, y) = (12, 8)` every time (all five
grunts land on the same open cell; the game never prevents overlap). -/

/-- The spawn draws of the concrete session. -/
def demoSpawn : SpawnData :=
  { epos := fun _ => [(12, 8)]
    ekind := fun _ => EKind.grunt
    pcount := 1
    ppos := fun _ => [(12, 8)]
    pkind := fun _ => PKind.health }

/-- A concrete oracle with those draws. -/
noncomputable def demoOracle : Oracle :=
  { sp := demoSpawn
    rand := fun _ => 0
    uni := fun _ => 1
    losFuel := 100
    shootFuel := 100 }

lemma demoOracle_valid : OracleValid demoOracle := by
  refine ⟨?_, ?_, ?_, ?_, ?_, ?_⟩
  · intro i p hp
    simp only [demoOracle, demoSpawn, List.mem_singleton] at hp
    subst hp
    refine ⟨by norm_num, by norm_num, by norm_num, by norm_num⟩
  · intro i
    exact Or.inl rfl
  · constructor <;> simp [demoOracle, demoSpawn]
  · intro i p hp
    simp only [demoOracle, demoSpawn, List.mem_singleton] at hp
    subst hp
    refine ⟨by norm_num, by norm_num, by norm_num, by norm_num⟩
  · intro i
    constructor <;> simp [demoOracle]
  · intro i
    constructor <;> simp [demoOracle] <;> norm_num

/-- The enemy spawned at `(12, 8)`. -/
noncomputable def demoEnemy : Enemy := mkEnemy (12, 8) EKind.grunt

/-- The session state `Game.__init__(stdscr, SIMPLE, "arena")`
produces. -/
noncomputable def initArena : GState :=
  { preGame Mode.simple MapSel.arena [] with
      enemies := [demoEnemy, demoEnemy, demoEnemy, demoEnemy, demoEnemy] }

lemma acceptEnemyPos_demo : acceptEnemyPos loadArena 3.5 3.5 (12, 8) = some true := by
  unfold acceptEnemyPos
  have hsq : Real.sqrt ((((12 : ℤ) : ℝ) - 3.5) ^ 2 + (((8 : ℤ) : ℝ) - 3.5) ^ 2)
      = Real.sqrt 92.5 := by norm_num
  rw [if_pos ?hd]
  case hd =>
    rw [hsq]
    nlinarith [Real.sq_sqrt (show (0 : ℝ) ≤ 92.5 by norm_num),
      Real.sqrt_nonneg (92.5 : ℝ)]
  rw [show cellPy loadArena (12, 8).2 (12, 8).1 = some 0 from by decide]
  decide

lemma findEnemyPos_demo : findEnemyPos loadArena 3.5 3.5 [(12, 8)] = some (12, 8) := by
  unfold findEnemyPos
  rw [acceptEnemyPos_demo]

lemma spawnEnemyList_demo :
    spawnEnemyList loadArena Mode.simple 1 3.5 3.5 demoSpawn
      = some [demoEnemy, demoEnemy, demoEnemy, demoEnemy, demoEnemy] := by
  unfold spawnEnemyList
  rw [show (min (3 + (1 : ℤ) * 2) 10).toNat = 5 from rfl]
  rw [show List.range 5 = [0, 1, 2, 3, 4] from rfl]
  simp only [List.mapM_cons, List.mapM_nil, demoSpawn, findEnemyPos_demo,
    Option.map_some, Option.bind_some, Option.pure_def]
  rfl

lemma mkGame_demo :
    mkGame Mode.simple MapSel.arena [] demoSpawn = some initArena := by
  unfold mkGame spawnEnemies
  rw [show (preGame Mode.simple MapSel.arena []).gameMap = loadArena from rfl]
  rw [show (preGame Mode.simple MapSel.arena []).mode = Mode.simple from rfl]
  rw [show (preGame Mode.simple MapSel.arena []).wave = 1 from rfl]
  rw [show (preGame Mode.simple MapSel.arena []).px = 3.5 from rfl]
  rw [show (preGame Mode.simple MapSel.arena []).py = 3.5 from rfl]
  rw [spawnEnemyList_demo]
  simp only [Option.some_bind]
  rw [if_neg (by decide : ¬ Mode.simple = Mode.advanced)]
  rfl

lemma initArena_reachable : Reachable initArena :=
  ⟨initArena, ⟨Mode.simple, MapSel.arena, [], demoOracle, demoOracle_valid,
    mkGame_demo⟩, Relation.ReflTransGen.refl⟩

/-!  ## Which fields each operation can touch -/

lemma tryMove_shape (s : GState) (nx ny : ℝ) :
    ∃ a b, tryMove s nx ny = { s with px := a, py := b } := by
  unfold tryMove
  cases cellPy s.gameMap (pyInt ny) (pyInt nx) with
  | none => exact ⟨s.px, s.py, rfl⟩
  | some v =>
    dsimp only
    by_cases hv : v = 0
    · rw [if_pos hv]
      exact ⟨nx, ny, rfl⟩
    · rw [if_neg hv]
      exact ⟨s.px, s.py, rfl⟩

/-- Fields `get_input` never alters in a session state (where
`Game.last_shot` and `Game.last_reload` are absent). -/
lemma getInput_fields (s : GState) (k : Key) (t : ℚ) (o : Oracle) (s1 : GState)
    (hgs : s.gLastShot = none) (hgr : s.gLastReload = none)
    (h : getInput s k t o = some s1) :
    s1.mode = s.mode ∧ s1.score = s.score ∧ s1.wave = s.wave ∧
    s1.gameMap = s.gameMap ∧ s1.health = s.health ∧ s1.armor = s.armor ∧
    s1.ammo = s.ammo ∧ s1.enemies = s.enemies ∧ s1.powerups = s.powerups ∧
    s1.gLastShot = none ∧ s1.gLastReload = none ∧
    s1.damageMult = s.damageMult ∧ s1.speedMult = s.speedMult := by
  cases k with
  | kw =>
    simp only [getInput] at h
    obtain ⟨a, b, hab⟩ := tryMove_shape s (s.px + Real.cos (radOf s.angle) * (0.1 * s.speedMult))
      (s.py - Real.sin (radOf s.angle) * (0.1 * s.speedMult))
    rw [hab] at h
    injection h with h2
    subst h2
    exact ⟨rfl, rfl, rfl, rfl, rfl, rfl, rfl, rfl, rfl, hgs, hgr, rfl, rfl⟩
  | ks =>
    simp only [getInput] at h
    obtain ⟨a, b, hab⟩ := tryMove_shape s (s.px - Real.cos (radOf s.angle) * (0.1 * s.speedMult))
      (s.py + Real.sin (radOf s.angle) * (0.1 * s.speedMult))
    rw [hab] at h
    injection h with h2
    subst h2
    exact ⟨rfl, rfl, rfl, rfl, rfl, rfl, rfl, rfl, rfl, hgs, hgr, rfl, rfl⟩
  | ka =>
    simp only [getInput] at h
    injection h with h2
    subst h2
    exact ⟨rfl, rfl, rfl, rfl, rfl, rfl, rfl, rfl, rfl, hgs, hgr, rfl, rfl⟩
  | kd =>
    simp only [getInput] at h
    injection h with h2
    subst h2
    exact ⟨rfl, rfl, rfl, rfl, rfl, rfl, rfl, rfl, rfl, hgs, hgr, rfl, rfl⟩
  | fire =>
    rw [getInput_fire_of_none s t o hgs] at h
    injection h with h2
    subst h2
    exact ⟨rfl, rfl, rfl, rfl, rfl, rfl, rfl, rfl, rfl, hgs, hgr, rfl, rfl⟩
  | k1 =>
    simp only [getInput] at h
    injection h with h2
    subst h2
    exact ⟨rfl, rfl, rfl, rfl, rfl, rfl, rfl, rfl, rfl, hgs, hgr, rfl, rfl⟩
  | k2 =>
    simp only [getInput] at h
    injection h with h2
    subst h2
    exact ⟨rfl, rfl, rfl, rfl, rfl, rfl, rfl, rfl, rfl, hgs, hgr, rfl, rfl⟩
  | k3 =>
    simp only [getInput] at h
    injection h with h2
    subst h2
    exact ⟨rfl, rfl, rfl, rfl, rfl, rfl, rfl, rfl, rfl, hgs, hgr, rfl, rfl⟩
  | kr =>
    rw [getInput_reload_of_none s t o hgr] at h
    injection h with h2
    subst h2
    exact ⟨rfl, rfl, rfl, rfl, rfl, rfl, rfl, rfl, rfl, hgs, hgr, rfl, rfl⟩
  | kp =>
    simp only [getInput] at h
    injection h with h2
    subst h2
    exact ⟨rfl, rfl, rfl, rfl, rfl, rfl, rfl, rfl, rfl, hgs, hgr, rfl, rfl⟩
  | kq =>
    simp only [getInput] at h
    injection h with h2
    subst h2
    exact ⟨rfl, rfl, rfl, rfl, rfl, rfl, rfl, rfl, rfl, hgs, hgr, rfl, rfl⟩
  | other =>
    simp only [getInput] at h
    injection h with h2
    subst h2
    exact ⟨rfl, rfl, rfl, rfl, rfl, rfl, rfl, rfl, rfl, hgs, hgr, rfl, rfl⟩

/-- `enemyStep` can only rewrite the enemy list (preserving its
length), the armor, the health and the game-over flag. -/
lemma enemyStep_shape (s : GState) (i : ℕ) (r u : ℝ) (f : ℕ) (s1 : GState)
    (h : enemyStep s i r u f = some s1) :
    ∃ es ar hp go,
      s1 = { s with enemies := es, armor := ar, health := hp, gameOver := go } ∧
      es.length = s.enemies.length := by
  simp only [enemyStep] at h
  repeat
    any_goals
      first
      | (split at h)
      | (simp only [Option.some_bind, Option.none_bind] at h)
      | (dsimp only at h)
  all_goals
    first
    | (exact Option.noConfusion h)
    | (injection h with h2
       subst h2
       exact ⟨_, _, _, _, rfl, by first | rfl | simp [List.length_set]⟩)

/-- Fields preserved by the whole enemy update pass. -/
lemma foldl_enemyStep_fields (o : Oracle) (l : List ℕ) :
    ∀ s s1 : GState,
      l.foldlM (fun st i => enemyStep st i (o.rand i) (o.uni i) o.losFuel) s = some s1 →
      s1.mode = s.mode ∧ s1.paused = s.paused ∧ s1.score = s.score ∧
      s1.wave = s.wave ∧ s1.gameMap = s.gameMap ∧ s1.px = s.px ∧ s1.py = s.py ∧
      s1.angle = s.angle ∧ s1.weapon = s.weapon ∧ s1.ammo = s.ammo ∧
      s1.damageMult = s.damageMult ∧ s1.speedMult = s.speedMult ∧
      s1.gLastShot = s.gLastShot ∧ s1.gLastReload = s.gLastReload ∧
      s1.powerups = s.powerups ∧ s1.enemies.length = s.enemies.length := by
  induction l with
  | nil =>
    intro s s1 h
    obtain rfl : s = s1 := Option.some.inj h
    exact ⟨rfl, rfl, rfl, rfl, rfl, rfl, rfl, rfl, rfl, rfl, rfl, rfl, rfl, rfl, rfl, rfl⟩
  | cons a l ih =>
    intro s s1 h
    rw [List.foldlM_cons] at h
    cases hm : enemyStep s a (o.rand a) (o.uni a) o.losFuel with
    | none => rw [hm] at h; exact Option.noConfusion h
    | some s2 =>
      rw [hm] at h
      simp only [Option.bind_eq_bind, Option.some_bind] at h
      obtain ⟨es, ar, hp, go, hshape, hlen⟩ := enemyStep_shape s a _ _ _ s2 hm
      obtain ⟨m1, p1, sc1, w1, g1, x1, y1, a1, wp1, am1, d1, sp1, ls1, lr1, pu1, le1⟩ :=
        ih s2 s1 h
      subst hshape
      exact ⟨m1, p1, sc1, w1, g1, x1, y1, a1, wp1, am1, d1, sp1, ls1, lr1, pu1,
        by rw [le1]; exact hlen⟩

/-- Fields preserved by `update_enemies`. -/
lemma updateEnemies_fields (s : GState) (o : Oracle) (s1 : GState)
    (h : updateEnemies s o = some s1) :
    s1.mode = s.mode ∧ s1.paused = s.paused ∧ s1.score = s.score ∧
    s1.wave = s.wave ∧ s1.gameMap = s.gameMap ∧ s1.px = s.px ∧ s1.py = s.py ∧
    s1.angle = s.angle ∧ s1.weapon = s.weapon ∧ s1.ammo = s.ammo ∧
    s1.damageMult = s.damageMult ∧ s1.speedMult = s.speedMult ∧
    s1.gLastShot = s.gLastShot ∧ s1.gLastReload = s.gLastReload ∧
    s1.powerups = s.powerups ∧ s1.enemies.length = s.enemies.length := by
  unfold updateEnemies at h
  by_cases hm : s.mode = Mode.simple
  · rw [if_pos hm] at h
    injection h with h2
    subst h2
    exact ⟨rfl, rfl, rfl, rfl, rfl, rfl, rfl, rfl, rfl, rfl, rfl, rfl, rfl, rfl, rfl, rfl⟩
  · rw [if_neg hm] at h
    exact foldl_enemyStep_fields o _ s s1 h

/-- `puStep` can only rewrite health, ammo, armor, the multipliers and
the powerup list (preserving its length). -/
lemma puStep_shape (s : GState) (i : ℕ) :
    ∃ hp am ar dm sm pus,
      puStep s i
          = { s with health := hp,
                     ammo := am,
                     armor := ar,
                     damageMult := dm,
                     speedMult := sm,
                     powerups := pus } ∧
        pus.length = s.powerups.length := by
  unfold puStep
  repeat
    any_goals
      first
      | (split)
      | (dsimp only)
  all_goals exact ⟨_, _, _, _, _, _, rfl, by first | rfl | simp [List.length_set]⟩

/-- Fields preserved by the pickup pass. -/
lemma checkPowerups_fields (s : GState) :
    (checkPowerups s).mode = s.mode ∧ (checkPowerups s).paused = s.paused ∧
    (checkPowerups s).gameOver = s.gameOver ∧ (checkPowerups s).score = s.score ∧
    (checkPowerups s).wave = s.wave ∧ (checkPowerups s).gameMap = s.gameMap ∧
    (checkPowerups s).px = s.px ∧ (checkPowerups s).py = s.py ∧
    (checkPowerups s).angle = s.angle ∧ (checkPowerups s).weapon = s.weapon ∧
    (checkPowerups s).gLastShot = s.gLastShot ∧
    (checkPowerups s).gLastReload = s.gLastReload ∧
    (checkPowerups s).enemies = s.enemies ∧
    (checkPowerups s).powerups.length = s.powerups.length := by
  unfold checkPowerups
  generalize List.range s.powerups.length = l
  induction l generalizing s with
  | nil =>
    exact ⟨rfl, rfl, rfl, rfl, rfl, rfl, rfl, rfl, rfl, rfl, rfl, rfl, rfl, rfl⟩
  | cons a l ih =>
    rw [List.foldl_cons]
    obtain ⟨hp, am, ar, dm, sm, pus, hshape, hlen⟩ := puStep_shape s a
    rw [hshape]
    obtain ⟨m1, p1, go1, sc1, w1, g1, x1, y1, a1, wp1, ls1, lr1, en1, le1⟩ :=
      ih { s with health := hp, ammo := am, armor := ar,
                  damageMult := dm, speedMult := sm, powerups := pus }
    exact ⟨m1, p1, go1, sc1, w1, g1, x1, y1, a1, wp1, ls1, lr1, en1, by rw [le1]; exact hlen⟩

lemma spawnEnemies_shape (s : GState) (sp : SpawnData) (s1 : GState)
    (h : spawnEnemies s sp = some s1) :
    ∃ es ps, s1 = { s with enemies := es, powerups := ps } := by
  unfold spawnEnemies at h
  cases hl : spawnEnemyList s.gameMap s.mode s.wave s.px s.py sp with
  | none => rw [hl] at h; exact Option.noConfusion h
  | some es =>
    rw [hl] at h
    simp only [Option.some_bind] at h
    by_cases hm : s.mode = Mode.advanced
    · rw [if_pos hm] at h
      cases hp : spawnPowerupList s.gameMap sp with
      | none => rw [hp] at h; exact Option.noConfusion h
      | some ps =>
        rw [hp] at h
        simp only [Option.map_some'] at h
        obtain rfl := Option.some.inj h
        exact ⟨es, s.powerups ++ ps, rfl⟩
    · rw [if_neg hm] at h
      obtain rfl := Option.some.inj h
      exact ⟨es, s.powerups, rfl⟩

lemma initState_glast (s : GState) (h : InitState s) :
    s.gLastShot = none ∧ s.gLastReload = none := by
  obtain ⟨mode, ms, walls, o, _, hmk⟩ := h
  obtain ⟨es, ps, rfl⟩ := spawnEnemies_shape _ _ _ hmk
  exact ⟨rfl, rfl⟩

lemma step_glast (s s2 : GState) (h : Step s s2)
    (hs : s.gLastShot = none) (hr : s.gLastReload = none) :
    s2.gLastShot = none ∧ s2.gLastReload = none := by
  obtain ⟨k, t, o, _, ht⟩ := h
  unfold tick at ht
  cases hg : getInput s k t o with
  | none => rw [hg] at ht; exact Option.noConfusion ht
  | some s1 =>
    rw [hg] at ht
    simp only [Option.some_bind] at ht
    obtain ⟨_, _, _, _, _, _, _, _, _, hls, hlr, _, _⟩ :=
      getInput_fields s k t o s1 hs hr hg
    by_cases hp : s1.paused
    · rw [if_pos hp] at ht
      obtain rfl := Option.some.inj ht
      exact ⟨hls, hlr⟩
    · rw [if_neg hp] at ht
      cases hu : updateEnemies s1 o with
      | none => rw [hu] at ht; exact Option.noConfusion ht
      | some s3 =>
        rw [hu] at ht
        simp only [Option.map_some'] at ht
        obtain rfl := Option.some.inj ht
        obtain ⟨_, _, _, _, _, _, _, _, _, _, _, _, hls3, hlr3, _, _⟩ :=
          updateEnemies_fields s1 o s3 hu
        obtain ⟨_, _, _, _, _, _, _, _, _, _, cls, clr, _, _⟩ :=
          checkPowerups_fields s3
        exact ⟨by rw [cls, hls3, hls], by rw [clr, hlr3, hlr]⟩

lemma reachable_glast (s : GState) (h : Reachable s) :
    s.gLastShot = none ∧ s.gLastReload = none := by
  obtain ⟨s0, hinit, hrt⟩ := h
  induction hrt with
  | refl => exact initState_glast s0 hinit
  | tail _ hstep ih =>
    obtain ⟨h1, h2⟩ := ih
    exact step_glast _ _ hstep h1 h2

/-- C3: in every state of every session as constructed by
`Game.__init__`, a fire or reload key press leaves the whole game state
unchanged: `Game.shoot` and `Game.reload` read the attributes
`Game.last_shot` / `Game.last_reload` which were initialized on the
`Player` only, so both raise `AttributeError` before any mutation, and
the bare `except` in `Game.get_input` swallows the exception — ammo,
enemy health, score and wave are all left exactly as they were. -/
theorem claim3_fire_reload_inert (s : GState) (hs : Reachable s) (t : ℚ) (o : Oracle) :
    getInput s Key.fire t o = some s ∧ getInput s Key.kr t o = some s := by
  obtain ⟨h1, h2⟩ := reachable_glast s hs
  exact ⟨getInput_fire_of_none s t o h1, getInput_reload_of_none s t o h2⟩

/-- Witness for C3 at the concrete fresh Simple/arena session. -/
theorem claim3_witness :
    Reachable initArena ∧
    getInput initArena Key.fire 1 demoOracle = some initArena ∧
    getInput initArena Key.kr 1 demoOracle = some initArena :=
  ⟨initArena_reachable,
    claim3_fire_reload_inert initArena initArena_reachable 1 demoOracle⟩

/-- C2 at its failing input: in the fresh Simple/arena session the
equipped pistol has 12 > 0 rounds and an alive enemy exists, yet
`shoot` at time 1 raises `AttributeError` (reading the absent
`Game.last_shot`) with the state unchanged — no ammo decrement and no
enemy damage ever happen, contradicting the claimed fire behaviour. -/
theorem claim2_attribute_error :
    initArena.weapon = WpnKind.pistol ∧
    initArena.ammo WpnKind.pistol = some 12 ∧
    (demoEnemy ∈ initArena.enemies ∧ demoEnemy.alive = true) ∧
    shoot initArena 1 demoOracle = some (Except.error initArena) :=
  ⟨rfl, rfl, ⟨by simp [initArena], rfl⟩, shoot_none initArena 1 demoOracle rfl⟩

/-- C4 at its failing input: in the fresh session, at time 100 (any
cooldown long elapsed), `reload` raises `AttributeError` reading the
absent `Game.last_reload` before the gate, and the key press leaves the
pistol ammo at 12 instead of setting it to `max_ammo`. -/
theorem claim4_attribute_error :
    reload initArena 100 = Except.error initArena ∧
    (getInput initArena Key.kr 100 demoOracle).map (fun s1 => s1.ammo WpnKind.pistol)
      = some (some 12) := by
  refine ⟨reload_none initArena 100 rfl, ?_⟩
  rw [getInput_reload_of_none initArena 100 demoOracle rfl]
  rfl

lemma getInput_paused (s : GState) (k : Key) (t : ℚ) (o : Oracle) (s1 : GState)
    (hgs : s.gLastShot = none) (hgr : s.gLastReload = none) (hk : k ≠ Key.kp)
    (h : getInput s k t o = some s1) : s1.paused = s.paused := by
  cases k with
  | kw =>
    simp only [getInput] at h
    obtain ⟨a, b, hab⟩ := tryMove_shape s _ _
    rw [hab] at h
    obtain rfl := Option.some.inj h
    rfl
  | ks =>
    simp only [getInput] at h
    obtain ⟨a, b, hab⟩ := tryMove_shape s _ _
    rw [hab] at h
    obtain rfl := Option.some.inj h
    rfl
  | ka => obtain rfl := Option.some.inj h; rfl
  | kd => obtain rfl := Option.some.inj h; rfl
  | fire =>
    rw [getInput_fire_of_none s t o hgs] at h
    obtain rfl := Option.some.inj h
    rfl
  | k1 => obtain rfl := Option.some.inj h; rfl
  | k2 => obtain rfl := Option.some.inj h; rfl
  | k3 => obtain rfl := Option.some.inj h; rfl
  | kr =>
    rw [getInput_reload_of_none s t o hgr] at h
    obtain rfl := Option.some.inj h
    rfl
  | kp => exact absurd rfl hk
  | kq => obtain rfl := Option.some.inj h; rfl
  | other => obtain rfl := Option.some.inj h; rfl

/-- The fresh session, paused (as one `p` key press leaves it). -/
noncomputable def sPausedC : GState := { initArena with paused := true }

/-- The paused session after an `a` key press: rotated to 357 degrees. -/
noncomputable def sRotated : GState := { sPausedC with angle := 357 }

lemma pyModR_neg3 : pyModR (0 - 3) 360 = 357 := by
  unfold pyModR
  rw [show ⌊((0 : ℝ) - 3) / 360⌋ = -1 from Int.floor_eq_iff.mpr (by norm_num)]
  norm_num

lemma tick_sPausedC : tick sPausedC Key.ka 0 demoOracle = some sRotated := by
  unfold tick
  simp only [getInput]
  rw [show pyModR (sPausedC.angle - 3) 360 = 357 from pyModR_neg3]
  simp only [Option.some_bind]
  rw [if_pos (show sPausedC.paused = true from rfl)]
  rfl

/-- C5 counterexample: in the paused fresh session a tick that receives
the `a` key changes the player angle from 0 to 357 — a paused loop tick
does mutate game state, because `get_input` runs before the pause check
(line 673 versus 675). -/
theorem claim5_counterexample :
    sPausedC.paused = true ∧ sPausedC.angle = 0 ∧
    tick sPausedC Key.ka 0 demoOracle = some sRotated ∧
    sRotated.angle = 357 ∧ (357 : ℝ) ≠ 0 :=
  ⟨rfl, rfl, tick_sPausedC, rfl, by norm_num⟩

/-- C5 amended: while paused a tick performs no simulation pass —
`update_enemies` and `check_powerups` are skipped, so enemies,
powerups, score, wave, health, armor and ammo are unchanged — but
input resolution still runs first, so rotation, movement, weapon
switching, quitting (and unpausing) still take effect during pause.
Stated for any non-`p` key in a session state. -/
theorem claim5_paused_tick_no_sim (s : GState) (k : Key) (t : ℚ) (o : Oracle)
    (s1 : GState) (hgs : s.gLastShot = none) (hgr : s.gLastReload = none)
    (hp : s.paused = true) (hk : k ≠ Key.kp)
    (ht : tick s k t o = some s1) :
    s1.enemies = s.enemies ∧ s1.powerups = s.powerups ∧ s1.score = s.score ∧
    s1.wave = s.wave ∧ s1.health = s.health ∧ s1.armor = s.armor ∧
    s1.ammo = s.ammo := by
  unfold tick at ht
  cases hg : getInput s k t o with
  | none => rw [hg] at ht; exact Option.noConfusion ht
  | some s2 =>
    rw [hg] at ht
    simp only [Option.some_bind] at ht
    have hps : s2.paused = true := by
      rw [getInput_paused s k t o s2 hgs hgr hk hg]; exact hp
    rw [if_pos hps] at ht
    obtain rfl := Option.some.inj ht
    obtain ⟨_, hsc, hw, _, hh, har, ham, hen, hpu, _, _, _, _⟩ :=
      getInput_fields s k t o s2 hgs hgr hg
    exact ⟨hen, hpu, hsc, hw, hh, har, ham⟩

/-- Witness for the amended C5 theorem: the concrete paused tick of the
counterexample leaves enemies, powerups, score, wave, health, armor
and ammo untouched (while rotating the view). -/
theorem claim5_witness :
    sRotated.enemies = sPausedC.enemies ∧ sRotated.powerups = sPausedC.powerups ∧
    sRotated.score = sPausedC.score ∧ sRotated.wave = sPausedC.wave ∧
    sRotated.health = sPausedC.health ∧ sRotated.armor = sPausedC.armor ∧
    sRotated.ammo = sPausedC.ammo :=
  claim5_paused_tick_no_sim sPausedC Key.ka 0 demoOracle sRotated rfl rfl rfl
    (by decide) tick_sPausedC

/-- C6: for every forward (`w`) or backward (`s`) move request, when
the destination cell `(int(new_y), int(new_x))` holds a wall the
player position is completely unchanged (the whole state is), and when
it is open both coordinates change by exactly the requested delta
`0.1 * speed_multiplier` along the current facing (plus cos and minus
sin forward, minus cos and plus sin backward, the screen y axis
pointing down). -/
theorem claim6_movement (s : GState) (t : ℚ) (o : Oracle) :
    (∀ v, cellPy s.gameMap
        (pyInt (s.py - Real.sin (radOf s.angle) * (0.1 * s.speedMult)))
        (pyInt (s.px + Real.cos (radOf s.angle) * (0.1 * s.speedMult))) = some v →
      v ≠ 0 → getInput s Key.kw t o = some s) ∧
    (cellPy s.gameMap
        (pyInt (s.py - Real.sin (radOf s.angle) * (0.1 * s.speedMult)))
        (pyInt (s.px + Real.cos (radOf s.angle) * (0.1 * s.speedMult))) = some 0 →
      getInput s Key.kw t o = some
        { s with px := s.px + Real.cos (radOf s.angle) * (0.1 * s.speedMult),
                 py := s.py - Real.sin (radOf s.angle) * (0.1 * s.speedMult) }) ∧
    (∀ v, cellPy s.gameMap
        (pyInt (s.py + Real.sin (radOf s.angle) * (0.1 * s.speedMult)))
        (pyInt (s.px - Real.cos (radOf s.angle) * (0.1 * s.speedMult))) = some v →
      v ≠ 0 → getInput s Key.ks t o = some s) ∧
    (cellPy s.gameMap
        (pyInt (s.py + Real.sin (radOf s.angle) * (0.1 * s.speedMult)))
        (pyInt (s.px - Real.cos (radOf s.angle) * (0.1 * s.speedMult))) = some 0 →
      getInput s Key.ks t o = some
        { s with px := s.px - Real.cos (radOf s.angle) * (0.1 * s.speedMult),
                 py := s.py + Real.sin (radOf s.angle) * (0.1 * s.speedMult) }) := by
  refine ⟨?_, ?_, ?_, ?_⟩
  · intro v hc hv
    simp only [getInput]
    unfold tryMove
    rw [hc]
    dsimp only
    rw [if_neg hv]
  · intro hc
    simp only [getInput]
    unfold tryMove
    rw [hc]
    dsimp only
    rw [if_pos rfl]
  · intro v hc hv
    simp only [getInput]
    unfold tryMove
    rw [hc]
    dsimp only
    rw [if_neg hv]
  · intro hc
    simp only [getInput]
    unfold tryMove
    rw [hc]
    dsimp only
    rw [if_pos rfl]

/-- The fresh session moved to the open south-west corner cell. -/
noncomputable def sOpen : GState := { initArena with px := 1.5, py := 1.5 }

lemma pyInt_36 : pyInt (3.6 : ℝ) = 3 :=
  pyInt_nonneg_eq (by norm_num) (by norm_num) (by norm_num)

lemma pyInt_35 : pyInt (3.5 : ℝ) = 3 :=
  pyInt_nonneg_eq (by norm_num) (by norm_num) (by norm_num)

lemma pyInt_16 : pyInt (1.6 : ℝ) = 1 :=
  pyInt_nonneg_eq (by norm_num) (by norm_num) (by norm_num)

lemma pyInt_15 : pyInt (1.5 : ℝ) = 1 :=
  pyInt_nonneg_eq (by norm_num) (by norm_num) (by norm_num)

lemma initArena_nx :
    initArena.px + Real.cos (radOf initArena.angle) * (0.1 * initArena.speedMult)
      = 3.6 := by
  rw [show initArena.angle = 0 from rfl, radOf_zero, Real.cos_zero,
    show initArena.px = 3.5 from rfl, show initArena.speedMult = 1 from rfl]
  norm_num

lemma initArena_ny :
    initArena.py - Real.sin (radOf initArena.angle) * (0.1 * initArena.speedMult)
      = 3.5 := by
  rw [show initArena.angle = 0 from rfl, radOf_zero, Real.sin_zero,
    show initArena.py = 3.5 from rfl, show initArena.speedMult = 1 from rfl]
  norm_num

lemma sOpen_nx :
    sOpen.px + Real.cos (radOf sOpen.angle) * (0.1 * sOpen.speedMult) = 1.6 := by
  rw [show sOpen.angle = 0 from rfl, radOf_zero, Real.cos_zero,
    show sOpen.px = 1.5 from rfl, show sOpen.speedMult = 1 from rfl]
  norm_num

lemma sOpen_ny :
    sOpen.py - Real.sin (radOf sOpen.angle) * (0.1 * sOpen.speedMult) = 1.5 := by
  rw [show sOpen.angle = 0 from rfl, radOf_zero, Real.sin_zero,
    show sOpen.py = 1.5 from rfl, show sOpen.speedMult = 1 from rfl]
  norm_num

/-- Witness for C6: in the fresh arena session (facing east at
`(3.5, 3.5)`, whose forward destination cell `(3, 3)` is a wall — the
spawn cell of the arena template is walled in) the `w` press leaves
the state unchanged; from the open cell at `(1.5, 1.5)` the `w` press
moves the player to exactly `(1.6, 1.5)`. -/
theorem claim6_witness :
    cellPy initArena.gameMap 3 3 = some 1 ∧
    getInput initArena Key.kw 0 demoOracle = some initArena ∧
    cellPy sOpen.gameMap 1 1 = some 0 ∧
    getInput sOpen Key.kw 0 demoOracle = some { sOpen with px := 1.6, py := 1.5 } := by
  refine ⟨by decide, ?_, by decide, ?_⟩
  · refine (claim6_movement initArena 0 demoOracle).1 1 ?_ (by decide)
    rw [initArena_nx, initArena_ny, pyInt_36, pyInt_35]
    decide
  · have h2 := (claim6_movement sOpen 0 demoOracle).2.1 (by
      rw [sOpen_nx, sOpen_ny, pyInt_16, pyInt_15]
      decide)
    rw [h2, sOpen_nx, sOpen_ny]

lemma mapM_spec {α β : Type} (f : α → Option β) :
    ∀ (l : List α) (res : List β), l.mapM f = some res →
      res.length = l.length ∧ ∀ b ∈ res, ∃ a ∈ l, f a = some b := by
  intro l
  induction l with
  | nil =>
    intro res h
    obtain rfl : ([] : List β) = res := Option.some.inj h
    exact ⟨rfl, by intro b hb; cases hb⟩
  | cons a l ih =>
    intro res h
    rw [List.mapM_cons] at h
    cases hf : f a with
    | none =>
      rw [hf] at h
      simp only [Option.bind_eq_bind, Option.none_bind] at h
      exact Option.noConfusion h
    | some b =>
      rw [hf] at h
      simp only [Option.bind_eq_bind, Option.some_bind] at h
      cases hl : l.mapM f with
      | none =>
        rw [hl] at h
        simp only [Option.bind_eq_bind, Option.none_bind] at h
        exact Option.noConfusion h
      | some bs =>
        rw [hl] at h
        simp only [Option.bind_eq_bind, Option.some_bind, Option.pure_def] at h
        obtain rfl := Option.some.inj h
        obtain ⟨hlen, hmem⟩ := ih bs hl
        refine ⟨by simp [hlen], ?_⟩
        intro b2 hb2
        rcases List.mem_cons.mp hb2 with rfl | hb2
        · exact ⟨a, List.mem_cons_self a l, hf⟩
        · obtain ⟨a2, ha2, hfa2⟩ := hmem b2 hb2
          exact ⟨a2, List.mem_cons_of_mem a ha2, hfa2⟩

/-- What the enemy batch contains: one enemy per slot of
`min(3 + wave * 2, 10)`, each at a position accepted by the rejection
loop with the slot's selected kind. -/
lemma spawnEnemyList_spec (gm : List (List ℤ)) (mode : Mode) (wave : ℤ)
    (px py : ℝ) (sp : SpawnData) (es : List Enemy)
    (h : spawnEnemyList gm mode wave px py sp = some es) :
    es.length = (min (3 + wave * 2) 10).toNat ∧
    ∀ e ∈ es, ∃ i c, i < (min (3 + wave * 2) 10).toNat ∧
      findEnemyPos gm px py (sp.epos i) = some c ∧
      e = mkEnemy c (enemyKindFor mode wave i (sp.ekind i)) := by
  unfold spawnEnemyList at h
  obtain ⟨hlen, hmem⟩ := mapM_spec _ _ _ h
  refine ⟨by rw [hlen, List.length_range], ?_⟩
  intro e he
  obtain ⟨i, hi, hfi⟩ := hmem e he
  rw [List.mem_range] at hi
  cases hc : findEnemyPos gm px py (sp.epos i) with
  | none => rw [hc] at hfi; exact Option.noConfusion hfi
  | some c =>
    rw [hc] at hfi
    simp only [Option.map_some'] at hfi
    exact ⟨i, c, hi, hc, (Option.some.inj hfi).symm⟩

lemma acceptEnemyPos_true (gm : List (List ℤ)) (px py : ℝ) (c : ℤ × ℤ)
    (h : acceptEnemyPos gm px py c = some true) :
    5 < Real.sqrt (((c.1 : ℝ) - px) ^ 2 + (((c.2 : ℝ)) - py) ^ 2) ∧
    cellPy gm c.2 c.1 = some 0 := by
  unfold acceptEnemyPos at h
  by_cases hd : 5 < Real.sqrt (((c.1 : ℝ) - px) ^ 2 + (((c.2 : ℝ)) - py) ^ 2)
  · rw [if_pos hd] at h
    cases hc : cellPy gm c.2 c.1 with
    | none => rw [hc] at h; exact Option.noConfusion h
    | some v =>
      rw [hc] at h
      have hv : (v == 0) = true := Option.some.inj h
      rw [beq_iff_eq] at hv
      subst hv
      exact ⟨hd, rfl⟩
  · rw [if_neg hd] at h
    have := Option.some.inj h
    exact absurd this (by simp)

lemma findEnemyPos_accept (gm : List (List ℤ)) (px py : ℝ) :
    ∀ (l : List (ℤ × ℤ)) (c : ℤ × ℤ), findEnemyPos gm px py l = some c →
      c ∈ l ∧ acceptEnemyPos gm px py c = some true := by
  intro l
  induction l with
  | nil => intro c h; exact Option.noConfusion h
  | cons a l ih =>
    intro c h
    unfold findEnemyPos at h
    cases ha : acceptEnemyPos gm px py a with
    | none => rw [ha] at h; exact Option.noConfusion h
    | some b =>
      rw [ha] at h
      cases b with
      | true =>
        obtain rfl := Option.some.inj h
        exact ⟨List.mem_cons_self _ _, ha⟩
      | false =>
        obtain ⟨hmem, hacc⟩ := ih c h
        exact ⟨List.mem_cons_of_mem a hmem, hacc⟩

/-- Refined description of `spawn_enemies`: the fields it writes and
the batch equation, everything else untouched (powerups only
appended). -/
lemma spawnEnemies_spec (s : GState) (sp : SpawnData) (s1 : GState)
    (h : spawnEnemies s sp = some s1) :
    ∃ es ps, spawnEnemyList s.gameMap s.mode s.wave s.px s.py sp = some es ∧
      s1 = { s with enemies := es, powerups := s.powerups ++ ps } := by
  unfold spawnEnemies at h
  cases hl : spawnEnemyList s.gameMap s.mode s.wave s.px s.py sp with
  | none => rw [hl] at h; exact Option.noConfusion h
  | some es =>
    rw [hl] at h
    simp only [Option.some_bind] at h
    by_cases hm : s.mode = Mode.advanced
    · rw [if_pos hm] at h
      cases hp : spawnPowerupList s.gameMap sp with
      | none => rw [hp] at h; exact Option.noConfusion h
      | some ps =>
        rw [hp] at h
        simp only [Option.map_some'] at h
        obtain rfl := Option.some.inj h
        exact ⟨es, ps, rfl, rfl⟩
    · rw [if_neg hm] at h
      obtain rfl := Option.some.inj h
      exact ⟨es, [], rfl, by simp⟩

/-- C7: `check_wave_complete` fires exactly at the moment the enemy
list holds no alive enemy, never before: with any alive enemy it is a
strict no-op, and when the last alive enemy has just transitioned to
dead it increments the wave counter by 1, sets health to
`min(100, health + 20)`, and spawns a fresh batch of
`min(3 + wave * 2, 10)` enemies where `wave` is the *incremented*
counter (`self.wave += 1` precedes `spawn_enemies`). -/
theorem claim7_wave_complete (s : GState) (sp : SpawnData) (hw : 0 ≤ s.wave) :
    ((∃ e ∈ s.enemies, e.alive = true) → checkWaveComplete s sp = some s) ∧
    ((∀ e ∈ s.enemies, e.alive = false) →
      ∀ s1, checkWaveComplete s sp = some s1 →
        s1.wave = s.wave + 1 ∧
        s1.health = min 100 (s.health + 20) ∧
        (s1.enemies.length : ℤ) = min (3 + (s.wave + 1) * 2) 10) := by
  constructor
  · intro ⟨e, he, hal⟩
    unfold checkWaveComplete
    rw [if_neg ?halive]
    case halive =>
      intro hall
      have := List.all_eq_true.mp hall e he
      rw [Bool.not_eq_true'] at this
      rw [hal] at this
      exact Bool.noConfusion this
  · intro hdead s1 h
    unfold checkWaveComplete at h
    rw [if_pos ?hall] at h
    case hall =>
      refine List.all_eq_true.mpr ?_
      intro e he
      rw [Bool.not_eq_true']
      exact hdead e he
    obtain ⟨es, ps, hl, rfl⟩ := spawnEnemies_spec _ sp _ h
    obtain ⟨hlen, _⟩ := spawnEnemyList_spec _ _ _ _ _ _ _ hl
    refine ⟨rfl, rfl, ?_⟩
    rw [hlen]
    dsimp only
    omega

/-- The fresh session with its five grunts replaced by a single dead
enemy and health at 50: the state right after the last alive enemy
transitioned to dead. -/
noncomputable def sDead : GState :=
  { initArena with enemies := [{ demoEnemy with alive := false }], health := 50 }

lemma spawnEnemyList_demo2 :
    spawnEnemyList loadArena Mode.simple 2 3.5 3.5 demoSpawn
      = some [demoEnemy, demoEnemy, demoEnemy, demoEnemy, demoEnemy,
              demoEnemy, demoEnemy] := by
  unfold spawnEnemyList
  rw [show (min (3 + (2 : ℤ) * 2) 10).toNat = 7 from rfl]
  rw [show List.range 7 = [0, 1, 2, 3, 4, 5, 6] from rfl]
  simp only [List.mapM_cons, List.mapM_nil, demoSpawn, findEnemyPos_demo,
    Option.map_some', Option.bind_eq_bind, Option.some_bind, Option.pure_def]
  rfl

/-- The state after the wave completes: wave 2, healed to 70, a fresh
batch of seven grunts. -/
noncomputable def sNextWave : GState :=
  { sDead with
      wave := 2
      health := 70
      enemies := [demoEnemy, demoEnemy, demoEnemy, demoEnemy, demoEnemy,
                  demoEnemy, demoEnemy] }

lemma checkWaveComplete_demo :
    checkWaveComplete sDead demoSpawn = some sNextWave := by
  unfold checkWaveComplete
  rw [if_pos (show sDead.enemies.all (fun e => !e.alive) = true from rfl)]
  unfold spawnEnemies
  dsimp only
  rw [show sDead.wave + 1 = 2 from rfl]
  rw [show sDead.gameMap = loadArena from rfl]
  rw [show sDead.mode = Mode.simple from rfl]
  rw [show sDead.px = 3.5 from rfl]
  rw [show sDead.py = 3.5 from rfl]
  rw [spawnEnemyList_demo2]
  simp only [Option.some_bind]
  rw [if_neg (by decide : ¬ Mode.simple = Mode.advanced)]
  rfl

/-- Witness for C7: in the concrete dead-wave state the theorem applies
and the outcome is wave 2, health 70 and a batch of 7 enemies; in the
fresh session with alive enemies the check is a no-op. -/
theorem claim7_witness :
    (∀ e ∈ sDead.enemies, e.alive = false) ∧
    checkWaveComplete sDead demoSpawn = some sNextWave ∧
    sNextWave.wave = sDead.wave + 1 ∧
    sNextWave.health = min 100 (sDead.health + 20) ∧
    (sNextWave.enemies.length : ℤ) = min (3 + (sDead.wave + 1) * 2) 10 ∧
    checkWaveComplete initArena demoSpawn = some initArena := by
  have hdead : ∀ e ∈ sDead.enemies, e.alive = false := by
    intro e he
    rcases List.mem_singleton.mp he with rfl
    rfl
  have hmain := (claim7_wave_complete sDead demoSpawn
      (by rw [show sDead.wave = 1 from rfl]; norm_num)).2 hdead
    sNextWave checkWaveComplete_demo
  have halive := (claim7_wave_complete initArena demoSpawn
      (by rw [show initArena.wave = 1 from rfl]; norm_num)).1
    ⟨demoEnemy, by simp [initArena], rfl⟩
  exact ⟨hdead, checkWaveComplete_demo, hmain.1, hmain.2.1, hmain.2.2, halive⟩

/-!  ## C8: the pickup pass against the claimed effect table -/

/-- The player-visible fields a pickup can change. -/
structure PView where
  health : ℤ
  ammo : WpnKind → Option ℤ
  armor : ℤ
  damageMult : ℝ
  speedMult : ℝ

/-- Projection of the state onto those fields. -/
noncomputable def toPView (s : GState) : PView :=
  ⟨s.health, s.ammo, s.armor, s.damageMult, s.speedMult⟩

/-- The claimed per-kind effect table, written from the claim text:
health and armor add their value clamped to 100, ammo adds its value to
every existing ammo pool, damage and speed *set* the multiplier to the
value.  This is the specification side of the refinement; the code
side is the dict dispatch in `check_powerups`. -/
noncomputable def specEffect (pv : PView) (k : PKind) : PView :=
  match k with
  | PKind.health => { pv with health := min 100 (pv.health + puValue PKind.health) }
  | PKind.ammo => { pv with ammo := fun w => (pv.ammo w).map fun v => v + puValue PKind.ammo }
  | PKind.armor => { pv with armor := min 100 (pv.armor + puValue PKind.armor) }
  | PKind.damage => { pv with damageMult := ((puValue PKind.damage : ℤ) : ℝ) }
  | PKind.speed => { pv with speedMult := ((puValue PKind.speed : ℤ) : ℝ) }

open Classical in
/-- Whether the pickup pass collects powerup `p` in state `s`: active
and strictly closer than half a map unit. -/
noncomputable def puQualB (s : GState) (p : Powerup) : Bool :=
  p.active && decide (Real.sqrt ((s.px - p.x) * (s.px - p.x) + (s.py - p.y) * (s.py - p.y)) < 0.5)

open Classical in
/-- What happens to one list entry during the pass. -/
noncomputable def entryOutcome (s0 : GState) (p : Powerup) : Powerup :=
  if puQualB s0 p then { p with active := false } else p

open Classical in
/-- The kinds collected while processing the index list `l`. -/
noncomputable def qualKinds (s0 : GState) (l : List ℕ) : List PKind :=
  l.filterMap fun j => (s0.powerups.get? j).bind fun p =>
    if puQualB s0 p then some p.kind else none

lemma puStep_spec (s s0 : GState) (j : ℕ) (hx : s.px = s0.px) (hy : s.py = s0.py)
    (hj : s.powerups.get? j = s0.powerups.get? j) :
    toPView (puStep s j) = (match s0.powerups.get? j with
      | some p => if puQualB s0 p then specEffect (toPView s) p.kind else toPView s
      | none => toPView s) ∧
    (puStep s j).powerups = (match s0.powerups.get? j with
      | some p => if puQualB s0 p then s.powerups.set j { p with active := false }
                  else s.powerups
      | none => s.powerups) ∧
    (puStep s j).px = s.px ∧ (puStep s j).py = s.py := by
  unfold puStep
  rw [hj]
  cases hp : s0.powerups.get? j with
  | none => exact ⟨rfl, rfl, rfl, rfl⟩
  | some p =>
    dsimp only
    by_cases ha : p.active = false
    · rw [if_pos ha]
      have hq : puQualB s0 p = false := by simp [puQualB, ha]
      rw [hq]
      exact ⟨by rw [if_neg (by simp)], by rw [if_neg (by simp)], rfl, rfl⟩
    · rw [if_neg ha]
      have ha2 : p.active = true := by
        cases hh : p.active
        · exact absurd hh ha
        · rfl
      by_cases hd : Real.sqrt ((s.px - p.x) * (s.px - p.x) + (s.py - p.y) * (s.py - p.y)) < 0.5
      · rw [if_pos hd]
        have hq : puQualB s0 p = true := by
          rw [puQualB, ha2, ← hx, ← hy]
          simp only [Bool.true_and, decide_eq_true_eq]
          exact hd
        rw [hq]
        refine ⟨?_, ?_, ?_, ?_⟩
        · rw [if_pos rfl]
          cases p.kind <;> rfl
        · rw [if_pos rfl]
          cases p.kind <;> rfl
        · cases p.kind <;> rfl
        · cases p.kind <;> rfl
      · rw [if_neg hd]
        have hq : puQualB s0 p = false := by
          rw [puQualB, ha2, ← hx, ← hy]
          simp only [Bool.true_and, decide_eq_false_iff_not]
          exact hd
        rw [hq]
        exact ⟨by rw [if_neg (by simp)], by rw [if_neg (by simp)], rfl, rfl⟩

lemma checkPowerups_foldl (s0 : GState) :
    ∀ (l : List ℕ) (s : GState), s.px = s0.px → s.py = s0.py →
      (∀ j ∈ l, s.powerups.get? j = s0.powerups.get? j) → l.Nodup →
      toPView (l.foldl puStep s) = (qualKinds s0 l).foldl specEffect (toPView s) ∧
      (∀ j ∈ l, (l.foldl puStep s).powerups.get? j
          = (s0.powerups.get? j).map (entryOutcome s0)) ∧
      (∀ j, j ∉ l → (l.foldl puStep s).powerups.get? j = s.powerups.get? j) ∧
      (l.foldl puStep s).px = s.px ∧ (l.foldl puStep s).py = s.py := by
  intro l
  induction l with
  | nil =>
    intro s hx hy hj hn
    refine ⟨rfl, ?_, ?_, rfl, rfl⟩
    · intro j hj2
      cases hj2
    · intro j hj2
      rfl
  | cons a l ih =>
    intro s hx hy hj hn
    rw [List.foldl_cons]
    obtain ⟨hpv, hpu, hpx, hpy⟩ :=
      puStep_spec s s0 a hx hy (hj a (List.mem_cons_self a l))
    have hnd := List.nodup_cons.mp hn
    have hj2 : ∀ j ∈ l, (puStep s a).powerups.get? j = s0.powerups.get? j := by
      intro j hjl
      rw [hpu]
      cases hp : s0.powerups.get? a with
      | none => exact hj j (List.mem_cons_of_mem a hjl)
      | some p =>
        dsimp only
        by_cases hq : puQualB s0 p
        · rw [if_pos hq]
          rw [List.get?_set_ne _ _ (fun haj => hnd.1 (by rw [haj]; exact hjl))]
          exact hj j (List.mem_cons_of_mem a hjl)
        · rw [if_neg hq]
          exact hj j (List.mem_cons_of_mem a hjl)
    obtain ⟨ih1, ih2, ih3, ih4, ih5⟩ :=
      ih (puStep s a) (by rw [hpx]; exact hx) (by rw [hpy]; exact hy) hj2 hnd.2
    have ha_case : (List.foldl puStep (puStep s a) l).powerups.get? a
        = (s0.powerups.get? a).map (entryOutcome s0) := by
      rw [ih3 a hnd.1, hpu]
      cases hp : s0.powerups.get? a with
      | none =>
        dsimp only
        rw [hj a (List.mem_cons_self a l), hp]
        rfl
      | some p =>
        dsimp only
        by_cases hq : puQualB s0 p
        · rw [if_pos hq]
          have hlen : a < s.powerups.length := by
            by_contra hcon
            have hnone := List.get?_eq_none.mpr (Nat.le_of_not_lt hcon)
            rw [hj a (List.mem_cons_self a l), hp] at hnone
            exact Option.noConfusion hnone
          rw [List.get?_set_eq_of_lt _ hlen]
          simp only [Option.map_some']
          rw [show entryOutcome s0 p = { p with active := false } from by
            unfold entryOutcome; rw [if_pos hq]]
        · rw [if_neg hq, hj a (List.mem_cons_self a l), hp]
          simp only [Option.map_some']
          rw [show entryOutcome s0 p = p from by unfold entryOutcome; rw [if_neg hq]]
    refine ⟨?_, ?_, ?_, by rw [ih4]; exact hpx, by rw [ih5]; exact hpy⟩
    · rw [ih1, hpv]
      unfold qualKinds
      rw [List.filterMap_cons]
      cases hp : s0.powerups.get? a with
      | none => rfl
      | some p =>
        dsimp only
        simp only [Option.some_bind]
        by_cases hq : puQualB s0 p
        · rw [if_pos hq, if_pos hq]
          dsimp only
          rw [List.foldl_cons]
        · rw [if_neg hq, if_neg hq]
    · intro j hjmem
      by_cases hja : j = a
      · rw [hja]
        exact ha_case
      · rcases List.mem_cons.mp hjmem with hcon | hjl
        · exact absurd hcon hja
        · exact ih2 j hjl
    · intro j hjn
      rw [ih3 j (fun hc => hjn (List.mem_cons_of_mem a hc)), hpu]
      cases hp : s0.powerups.get? a with
      | none => rfl
      | some p =>
        dsimp only
        by_cases hq : puQualB s0 p
        · rw [if_pos hq]
          exact List.get?_set_ne _ _
            (fun hc => hjn (by rw [← hc]; exact List.mem_cons_self a l))
        · rw [if_neg hq]

lemma checkPowerups_entries (s : GState) :
    toPView (checkPowerups s)
        = (qualKinds s (List.range s.powerups.length)).foldl specEffect (toPView s) ∧
    ∀ j, j < s.powerups.length →
      (checkPowerups s).powerups.get? j = (s.powerups.get? j).map (entryOutcome s) := by
  obtain ⟨h1, h2, _, _, _⟩ := checkPowerups_foldl s (List.range s.powerups.length) s
    rfl rfl (fun j _ => rfl) (List.nodup_range _)
  exact ⟨h1, fun j hj => h2 j (List.mem_range.mpr hj)⟩

lemma step_powerup_inactive (s s2 : GState) (h : Step s s2)
    (hgs : s.gLastShot = none) (hgr : s.gLastReload = none)
    (i : ℕ) (p : Powerup) (hp : s.powerups.get? i = some p) (hin : p.active = false) :
    ∃ p2, s2.powerups.get? i = some p2 ∧ p2.active = false ∧ p2.kind = p.kind := by
  obtain ⟨k, t, o, _, ht⟩ := h
  unfold tick at ht
  cases hg : getInput s k t o with
  | none => rw [hg] at ht; exact Option.noConfusion ht
  | some s1 =>
    rw [hg] at ht
    simp only [Option.some_bind] at ht
    obtain ⟨_, _, _, _, _, _, _, _, hpu1, _, _, _, _⟩ :=
      getInput_fields s k t o s1 hgs hgr hg
    by_cases hpa : s1.paused
    · rw [if_pos hpa] at ht
      obtain rfl := Option.some.inj ht
      exact ⟨p, by rw [hpu1]; exact hp, hin, rfl⟩
    · rw [if_neg hpa] at ht
      cases hu : updateEnemies s1 o with
      | none => rw [hu] at ht; exact Option.noConfusion ht
      | some s3 =>
        rw [hu] at ht
        simp only [Option.map_some'] at ht
        obtain rfl := Option.some.inj ht
        obtain ⟨_, _, _, _, _, _, _, _, _, _, _, _, _, _, hpu3, _⟩ :=
          updateEnemies_fields s1 o s3 hu
        have hp3 : s3.powerups.get? i = some p := by
          rw [hpu3, hpu1]; exact hp
        have hilen : i < s3.powerups.length := by
          by_contra hcon
          have := List.get?_eq_none.mpr (Nat.le_of_not_lt hcon)
          rw [this] at hp3
          exact Option.noConfusion hp3
        obtain ⟨_, hent⟩ := checkPowerups_entries s3
        refine ⟨entryOutcome s3 p, ?_, ?_, ?_⟩
        · rw [hent i hilen, hp3]
          rfl
        · unfold entryOutcome puQualB
          rw [hin]
          simp [hin]
        · unfold entryOutcome
          by_cases hq : puQualB s3 p
          · rw [if_pos hq]
          · rw [if_neg hq]

lemma rtg_glast (s s2 : GState) (h : Relation.ReflTransGen Step s s2)
    (hgs : s.gLastShot = none) (hgr : s.gLastReload = none) :
    s2.gLastShot = none ∧ s2.gLastReload = none := by
  induction h with
  | refl => exact ⟨hgs, hgr⟩
  | tail _ hstep ih => exact step_glast _ _ hstep ih.1 ih.2

/-- C8: the pickup pass applies exactly the claimed table effect to
every active powerup within 0.5 map units of the player — each such
entry is deactivated, non-collected entries are untouched, and the
player fields are the left-to-right fold of the per-kind table effects
of the collected powerups (health and armor additive clamped at 100,
ammo added to every pool, damage and speed multipliers *set* to the
value) — and once a powerup is inactive, no later session step ever
reactivates it. -/
theorem claim8_powerup_pass (s : GState) :
    (∀ i p, s.powerups.get? i = some p → puQualB s p = true →
      (checkPowerups s).powerups.get? i = some { p with active := false }) ∧
    (∀ i p, s.powerups.get? i = some p → puQualB s p = false →
      (checkPowerups s).powerups.get? i = some p) ∧
    toPView (checkPowerups s)
      = (qualKinds s (List.range s.powerups.length)).foldl specEffect (toPView s) ∧
    (∀ s2, Relation.ReflTransGen Step s s2 →
      s.gLastShot = none → s.gLastReload = none →
      ∀ i p, s.powerups.get? i = some p → p.active = false →
        ∃ p2, s2.powerups.get? i = some p2 ∧ p2.active = false ∧ p2.kind = p.kind) := by
  obtain ⟨hview, hent⟩ := checkPowerups_entries s
  refine ⟨?_, ?_, hview, ?_⟩
  · intro i p hp hq
    have hilen : i < s.powerups.length := by
      by_contra hcon
      have := List.get?_eq_none.mpr (Nat.le_of_not_lt hcon)
      rw [this] at hp
      exact Option.noConfusion hp
    rw [hent i hilen, hp]
    simp only [Option.map_some']
    rw [show entryOutcome s p = { p with active := false } from by
      unfold entryOutcome; rw [if_pos hq]]
  · intro i p hp hq
    have hilen : i < s.powerups.length := by
      by_contra hcon
      have := List.get?_eq_none.mpr (Nat.le_of_not_lt hcon)
      rw [this] at hp
      exact Option.noConfusion hp
    rw [hent i hilen, hp]
    simp only [Option.map_some']
    rw [show entryOutcome s p = p from by
      unfold entryOutcome; rw [hq]; simp]
  · intro s2 hrt
    induction hrt with
    | refl =>
      intro _ _ i p hp hin
      exact ⟨p, hp, hin, rfl⟩
    | tail hprev hstep ih =>
      intro hgs hgr i p hp hin
      obtain ⟨p2, hp2, hin2, hk2⟩ := ih hgs hgr i p hp hin
      obtain ⟨hg1, hg2⟩ := rtg_glast _ _ hprev hgs hgr
      obtain ⟨p3, hp3, hin3, hk3⟩ :=
        step_powerup_inactive _ _ hstep hg1 hg2 i p2 hp2 hin2
      exact ⟨p3, hp3, hin3, by rw [hk3, hk2]⟩

/-- The concrete session for the pickup witness: the arena game with a
health powerup one tenth of a map unit from the player and low
health. -/
noncomputable def demoPu : Powerup := ⟨3.4, 3.5, PKind.health, true⟩

noncomputable def sPu : GState :=
  { initArena with powerups := [demoPu], health := 40 }

noncomputable def sPuDone : GState :=
  { initArena with powerups := [{ demoPu with active := false }] }

lemma sPu_qual : puQualB sPu demoPu = true := by
  have hd : Real.sqrt ((sPu.px - demoPu.x) * (sPu.px - demoPu.x)
      + (sPu.py - demoPu.y) * (sPu.py - demoPu.y)) < 0.5 := by
    rw [show sPu.px = 3.5 from rfl, show sPu.py = 3.5 from rfl,
      show demoPu.x = 3.4 from rfl, show demoPu.y = 3.5 from rfl]
    rw [show ((3.5 : ℝ) - 3.4) * ((3.5 : ℝ) - 3.4)
        + ((3.5 : ℝ) - 3.5) * ((3.5 : ℝ) - 3.5) = 0.1 ^ 2 by norm_num]
    rw [Real.sqrt_sq (by norm_num : (0 : ℝ) ≤ 0.1)]
    norm_num
  unfold puQualB
  rw [show demoPu.active = true from rfl]
  simp [hd]

lemma qualKinds_sPu :
    qualKinds sPu (List.range sPu.powerups.length) = [PKind.health] := by
  unfold qualKinds
  rw [show List.range sPu.powerups.length = [0] from rfl]
  simp only [List.filterMap_cons, List.filterMap_nil]
  rw [show sPu.powerups.get? 0 = some demoPu from rfl]
  simp only [Option.some_bind, sPu_qual]
  rfl

theorem claim8_witness :
    ((checkPowerups sPu).powerups.get? 0 = some { demoPu with active := false } ∧
      toPView (checkPowerups sPu) = specEffect (toPView sPu) PKind.health ∧
      (checkPowerups sPu).health = 90) ∧
    (∃ p2, (checkPowerups sPuDone).powerups.get? 0 = some p2 ∧
      p2.active = false ∧ p2.kind = PKind.health) := by
  obtain ⟨h1, _, h3, _⟩ := claim8_powerup_pass sPu
  have hview : toPView (checkPowerups sPu) = specEffect (toPView sPu) PKind.health := by
    rw [h3, qualKinds_sPu]
    rfl
  refine ⟨⟨h1 0 demoPu rfl sPu_qual, hview, ?_⟩, ?_⟩
  · have hh : (toPView (checkPowerups sPu)).health = 90 := by
      rw [hview]
      rw [show (specEffect (toPView sPu) PKind.health).health
          = min 100 (sPu.health + 50) from rfl]
      rw [show sPu.health = 40 from rfl]
      decide
    exact hh
  · obtain ⟨_, _, _, h4d⟩ := claim8_powerup_pass sPuDone
    have htick : tick sPuDone Key.other 0 demoOracle = some (checkPowerups sPuDone) := by
      unfold tick
      rw [show getInput sPuDone Key.other 0 demoOracle = some sPuDone from rfl]
      simp only [Option.some_bind]
      rw [if_neg (show ¬sPuDone.paused = true from by
        rw [show sPuDone.paused = false from rfl]; simp)]
      rw [show updateEnemies sPuDone demoOracle = some sPuDone from by
        unfold updateEnemies
        rw [if_pos (show sPuDone.mode = Mode.simple from rfl)]]
      rfl
    have hstep : Step sPuDone (checkPowerups sPuDone) :=
      ⟨Key.other, 0, demoOracle, demoOracle_valid, htick⟩
    obtain ⟨p2, ha, hb, hc⟩ := h4d (checkPowerups sPuDone)
      (Relation.ReflTransGen.single hstep) rfl rfl 0
      { demoPu with active := false } rfl rfl
    exact ⟨p2, ha, hb, hc.trans rfl⟩

/-!  ## C9: alive enemies sit on open cells -/

/-- The invariant: every alive enemy sits on a cell whose
Python-indexed grid read (the very read the AI move check performs)
yields an open cell. -/
def EnemiesOpen (s : GState) : Prop :=
  ∀ e ∈ s.enemies, e.alive = true →
    cellPy s.gameMap (pyInt e.y) (pyInt e.x) = some 0

lemma enemiesOpen_congr (s s2 : GState) (he : s2.enemies = s.enemies)
    (hg : s2.gameMap = s.gameMap) (h : EnemiesOpen s) : EnemiesOpen s2 := by
  intro e he2 hal
  rw [he] at he2
  rw [hg]
  exact h e he2 hal

lemma pyInt_intCast (n : ℤ) : pyInt ((n : ℝ)) = n := by
  unfold pyInt
  by_cases h : (0 : ℝ) ≤ (n : ℝ)
  · rw [if_pos h, Int.floor_intCast]
  · rw [if_neg h, Int.ceil_intCast]

lemma initState_enemiesOpen (s : GState) (h : InitState s) : EnemiesOpen s := by
  obtain ⟨mode, ms, walls, o, _, hmk⟩ := h
  unfold mkGame at hmk
  obtain ⟨es, ps, hlist, rfl⟩ := spawnEnemies_spec _ _ _ hmk
  intro e he _
  obtain ⟨_, hmem⟩ := spawnEnemyList_spec _ _ _ _ _ _ _ hlist
  obtain ⟨i, c, _, hfind, rfl⟩ := hmem e he
  obtain ⟨_, hacc⟩ := findEnemyPos_accept _ _ _ _ _ hfind
  obtain ⟨_, hcell⟩ := acceptEnemyPos_true _ _ _ _ hacc
  show cellPy (preGame mode ms walls).gameMap (pyInt ((c.2 : ℝ))) (pyInt ((c.1 : ℝ)))
      = some 0
  rw [pyInt_intCast, pyInt_intCast]
  exact hcell

lemma enemyStep_enemiesOpen (s : GState) (i : ℕ) (r u : ℝ) (lf : ℕ) (s2 : GState)
    (h : enemyStep s i r u lf = some s2) (hE : EnemiesOpen s) : EnemiesOpen s2 := by
  unfold enemyStep at h
  cases hg : s.enemies.get? i with
  | none =>
    rw [hg] at h
    dsimp only at h
    obtain rfl := Option.some.inj h
    exact hE
  | some e =>
    rw [hg] at h
    dsimp only at h
    by_cases hal : e.alive = false
    · rw [if_pos hal] at h
      obtain rfl := Option.some.inj h
      exact hE
    · rw [if_neg hal] at h
      generalize hD : Real.sqrt ((s.px - e.x) * (s.px - e.x)
          + (s.py - e.y) * (s.py - e.y)) = D at h
      by_cases hd : 2 < D
      · rw [if_pos hd] at h
        generalize hMX : e.x + (s.px - e.x) / D * (ENEMY_TYPES e.kind).speed = MX at h
        generalize hMY : e.y + (s.py - e.y) / D * (ENEMY_TYPES e.kind).speed = MY at h
        cases hc : cellPy s.gameMap (pyInt MY) (pyInt MX) with
        | none =>
          rw [hc] at h
          simp only [Option.none_bind] at h
          exact Option.noConfusion h
        | some v =>
          rw [hc] at h
          dsimp only at h
          by_cases hv : v = 0
          · rw [if_pos hv] at h
            simp only [Option.some_bind] at h
            have hE1 : EnemiesOpen
                { s with enemies := s.enemies.set i { e with x := MX, y := MY } } := by
              intro e2 he2 hal2
              rcases List.mem_or_eq_of_mem_set he2 with h2 | rfl
              · exact hE e2 h2 hal2
              · show cellPy s.gameMap (pyInt MY) (pyInt MX) = some 0
                rw [hc, hv]
            have hkey : s2.enemies
                  = s.enemies.set i ({ e with x := MX, y := MY } : Enemy) ∧
                s2.gameMap = s.gameMap := by
              repeat any_goals (first | split at h | dsimp only at h)
              all_goals
                first
                  | exact Option.noConfusion h
                  | (obtain rfl := Option.some.inj h; exact ⟨rfl, rfl⟩)
            exact enemiesOpen_congr
              { s with enemies := s.enemies.set i { e with x := MX, y := MY } } s2
              hkey.1 hkey.2 hE1
          · rw [if_neg hv] at h
            simp only [Option.some_bind] at h
            have hkey : s2.enemies = s.enemies ∧ s2.gameMap = s.gameMap := by
              repeat any_goals (first | split at h | dsimp only at h)
              all_goals
                first
                  | exact Option.noConfusion h
                  | (obtain rfl := Option.some.inj h; exact ⟨rfl, rfl⟩)
            exact enemiesOpen_congr s s2 hkey.1 hkey.2 hE
      · rw [if_neg hd] at h
        simp only [Option.some_bind] at h
        have hkey : s2.enemies = s.enemies ∧ s2.gameMap = s.gameMap := by
          repeat any_goals (first | split at h | dsimp only at h)
          all_goals
            first
              | exact Option.noConfusion h
              | (obtain rfl := Option.some.inj h; exact ⟨rfl, rfl⟩)
        exact enemiesOpen_congr s s2 hkey.1 hkey.2 hE

lemma foldl_enemyStep_enemiesOpen (o : Oracle) (l : List ℕ) :
    ∀ s s1 : GState,
      l.foldlM (fun st i => enemyStep st i (o.rand i) (o.uni i) o.losFuel) s = some s1 →
      EnemiesOpen s → EnemiesOpen s1 := by
  induction l with
  | nil =>
    intro s s1 h hE
    obtain rfl := Option.some.inj h
    exact hE
  | cons a l ih =>
    intro s s1 h hE
    rw [List.foldlM_cons] at h
    cases hm : enemyStep s a (o.rand a) (o.uni a) o.losFuel with
    | none =>
      rw [hm] at h
      simp only [Option.bind_eq_bind, Option.none_bind] at h
      exact Option.noConfusion h
    | some s2 =>
      rw [hm] at h
      simp only [Option.bind_eq_bind, Option.some_bind] at h
      exact ih s2 s1 h (enemyStep_enemiesOpen s a _ _ _ s2 hm hE)

lemma updateEnemies_enemiesOpen (s : GState) (o : Oracle) (s1 : GState)
    (h : updateEnemies s o = some s1) (hE : EnemiesOpen s) : EnemiesOpen s1 := by
  unfold updateEnemies at h
  by_cases hm : s.mode = Mode.simple
  · rw [if_pos hm] at h
    obtain rfl := Option.some.inj h
    exact hE
  · rw [if_neg hm] at h
    exact foldl_enemyStep_enemiesOpen o _ s s1 h hE

lemma step_enemiesOpen (s s2 : GState) (h : Step s s2)
    (hgs : s.gLastShot = none) (hgr : s.gLastReload = none)
    (hE : EnemiesOpen s) : EnemiesOpen s2 := by
  obtain ⟨k, t, o, _, ht⟩ := h
  unfold tick at ht
  cases hg : getInput s k t o with
  | none => rw [hg] at ht; exact Option.noConfusion ht
  | some s1 =>
    rw [hg] at ht
    simp only [Option.some_bind] at ht
    obtain ⟨_, _, _, hgm1, _, _, _, hen1, _, _, _, _, _⟩ :=
      getInput_fields s k t o s1 hgs hgr hg
    have hE1 : EnemiesOpen s1 := enemiesOpen_congr s s1 hen1 hgm1 hE
    by_cases hpa : s1.paused
    · rw [if_pos hpa] at ht
      obtain rfl := Option.some.inj ht
      exact hE1
    · rw [if_neg hpa] at ht
      cases hu : updateEnemies s1 o with
      | none => rw [hu] at ht; exact Option.noConfusion ht
      | some s3 =>
        rw [hu] at ht
        simp only [Option.map_some'] at ht
        obtain rfl := Option.some.inj ht
        have hE3 : EnemiesOpen s3 := updateEnemies_enemiesOpen s1 o s3 hu hE1
        obtain ⟨_, _, _, _, _, hgm4, _, _, _, _, _, _, hen4, _⟩ :=
          checkPowerups_fields s3
        exact enemiesOpen_congr s3 (checkPowerups s3) hen4 hgm4 hE3

/-- C9: in every reachable session state, every alive enemy occupies an
open cell of the grid, read exactly as the code reads it (truncating
int conversion, Python negative-index wrap); moreover the enemy spawn
acceptance test passes only for positions strictly more than 5 map
units from the player whose cell is open, which is how the invariant is
established at spawn time, and the AI move check preserves it. -/
theorem claim9_alive_enemies_on_open_cells (s : GState) (h : Reachable s) :
    (∀ e ∈ s.enemies, e.alive = true →
      cellPy s.gameMap (pyInt e.y) (pyInt e.x) = some 0) ∧
    ∀ (gm : List (List ℤ)) (px py : ℝ) (c : ℤ × ℤ),
      acceptEnemyPos gm px py c = some true →
        5 < Real.sqrt (((c.1 : ℝ) - px) ^ 2 + ((c.2 : ℝ) - py) ^ 2) ∧
        cellPy gm c.2 c.1 = some 0 := by
  refine ⟨?_, fun gm px py c hacc => acceptEnemyPos_true gm px py c hacc⟩
  obtain ⟨s0, hinit, hrt⟩ := h
  obtain ⟨hg1, hg2⟩ := initState_glast s0 hinit
  have hE : EnemiesOpen s := by
    induction hrt with
    | refl => exact initState_enemiesOpen s0 hinit
    | tail hprev hstep ih =>
      obtain ⟨hgs, hgr⟩ := rtg_glast _ _ hprev hg1 hg2
      exact step_enemiesOpen _ _ hstep hgs hgr ih
  exact hE

/-- Witness: in the freshly constructed arena session, the theorem
applies and puts the concrete enemy spawned at `(12, 8)` on an open
cell; the spawn-acceptance half applies to its accepted draw. -/
theorem claim9_witness :
    cellPy initArena.gameMap (pyInt demoEnemy.y) (pyInt demoEnemy.x) = some 0 ∧
    5 < Real.sqrt ((((12 : ℤ) : ℝ) - 3.5) ^ 2 + (((8 : ℤ) : ℝ) - 3.5) ^ 2) := by
  obtain ⟨h1, h2⟩ := claim9_alive_enemies_on_open_cells initArena initArena_reachable
  refine ⟨h1 demoEnemy (List.mem_cons_self _ _) rfl, ?_⟩
  exact (h2 loadArena 3.5 3.5 (12, 8) acceptEnemyPos_demo).1
